import Mathlib

/-!
# clickhouse_fdw : libclickhouse/src/clickhouse_binary.c

A shallow embedding of the native-protocol client in `clickhouse_binary.c`:
the single-slot error state, the buffered channels, the socket calls seen as a
script of operating-system answers, the handshake, ping and query submission.

Conventions of the embedding

* C strings are lists of byte values (`List Nat`, each below 256), without the
  terminating NUL; a `NULL` pointer is `none`.
* The operating system is a script: a queue of answers for `send` and a queue of
  answers for `recv` (each with the answer of the readiness wait that follows a
  would-block). Every call the code makes is appended to a trace. A function
  returns `none` when the call does not return: the script ran out while the
  code was still retrying, or an `assert` failed.
* The header files `clickhouse_net.h`, `clickhouse_binary.h` and
  `clickhouse_config.h` are not part of the sources. Their constants are the
  fields of `Defs`; their helpers are modelled from the specification and are
  marked so.
-/

namespace ClickhouseBinary

/-! ## Error state (`in_error_state`, `last_error`) -/

/-- The two file-level statics `in_error_state` and `last_error`. -/
structure ErrorState where
  in_error_state : Bool
  last_error : String
deriving DecidableEq

/-- The statics as the program starts: no error, empty message buffer. -/
def ErrorState.init : ErrorState := ⟨false, ""⟩

/-- `ch_error(fmt, ...)`: raise the flag and store the formatted message. -/
def ch_error (_e : ErrorState) (msg : String) : ErrorState :=
  { in_error_state := true, last_error := msg }

/-- `ch_reset_error()`: only the flag is cleared. -/
def ch_reset_error (e : ErrorState) : ErrorState :=
  { e with in_error_state := false }

/-- `ch_binary_errno()`. -/
def ch_binary_errno (e : ErrorState) : Int :=
  if e.in_error_state then 1 else 0

/-- `ch_binary_last_error()`: `none` is the `NULL` pointer. -/
def ch_binary_last_error (e : ErrorState) : Option String :=
  if e.in_error_state then some e.last_error else none

/-! ## Constants and target properties that come from the missing headers -/

/-- Constants of `clickhouse_binary.h` and `clickhouse_config.h`, the capacity
given to a channel by `ch_readahead_init`, whether plain `char` is signed on the
target, and what the varuint reader hands back when it fails. -/
structure Defs where
  CH_Hello : Nat
  CH_Progress : Nat
  CH_Pong : Nat
  CH_MaxPacketType : Nat
  CH_Client_Hello : Nat
  CH_Client_Query : Nat
  CH_Client_Ping : Nat
  CH_KIND_INITIAL_QUERY : Nat
  VERSION_MAJOR : Nat
  VERSION_MINOR : Nat
  VERSION_REVISION : Nat
  DBMS_VERSION_MAJOR : Nat
  DBMS_VERSION_MINOR : Nat
  DBMS_VERSION_PATCH : Nat
  DBMS_VERSION_REVISION : Nat
  DBMS_MIN_REVISION_WITH_CLIENT_INFO : Nat
  DBMS_MIN_REVISION_WITH_SERVER_TIMEZONE : Nat
  DBMS_MIN_REVISION_WITH_QUOTA_KEY_IN_CLIENT_INFO : Nat
  DBMS_MIN_REVISION_WITH_SERVER_DISPLAY_NAME : Nat
  DBMS_MIN_REVISION_WITH_VERSION_PATCH : Nat
  readahead_size : Nat
  char_signed : Bool
  varuint_fail : Nat

/-- The values of the ClickHouse native protocol (server packets Hello 0,
Data 1, Exception 2, Progress 3, Pong 4, ...; client packets Hello 0, Query 1,
Ping 4), a channel of 8192 bytes and a target whose plain `char` is signed.
Used only where the code is evaluated on a concrete input. -/
def clickhouse_defs : Defs :=
  { CH_Hello := 0
    CH_Progress := 3
    CH_Pong := 4
    CH_MaxPacketType := 12
    CH_Client_Hello := 0
    CH_Client_Query := 1
    CH_Client_Ping := 4
    CH_KIND_INITIAL_QUERY := 1
    VERSION_MAJOR := 1
    VERSION_MINOR := 1
    VERSION_REVISION := 54441
    DBMS_VERSION_MAJOR := 1
    DBMS_VERSION_MINOR := 1
    DBMS_VERSION_PATCH := 0
    DBMS_VERSION_REVISION := 54441
    DBMS_MIN_REVISION_WITH_CLIENT_INFO := 54032
    DBMS_MIN_REVISION_WITH_SERVER_TIMEZONE := 54058
    DBMS_MIN_REVISION_WITH_QUOTA_KEY_IN_CLIENT_INFO := 54060
    DBMS_MIN_REVISION_WITH_SERVER_DISPLAY_NAME := 54372
    DBMS_MIN_REVISION_WITH_VERSION_PATCH := 54401
    readahead_size := 8192
    char_signed := true
    varuint_fail := 0 }

/-! ## Buffered channel (`ch_readahead_t`, from `clickhouse_net.h`) -/

/-- Modelled from the spec: the type `ch_readahead_t` is declared in the missing
`clickhouse_net.h`. A channel has a socket, a capacity `size`, a write cursor
`pos` (bytes filled), a read cursor `pos_read` (bytes consumed) and its memory
`buf`. -/
structure ch_readahead_t where
  sock : Int
  size : Nat
  pos : Nat
  pos_read : Nat
  buf : List Nat
deriving DecidableEq

/-- Modelled from the spec: `ch_readahead_unread` of the missing
`clickhouse_net.h`; "Unread = write cursor - read cursor". -/
def ch_readahead_unread (r : ch_readahead_t) : Nat := r.pos - r.pos_read

/-- Modelled from the spec: `ch_readahead_left` of the missing
`clickhouse_net.h`; "Left = capacity - write cursor". -/
def ch_readahead_left (r : ch_readahead_t) : Nat := r.size - r.pos

/-- Modelled from the spec: `ch_readahead_pos_advance` of the missing
`clickhouse_net.h`; the write cursor moves forward by `n`. -/
def ch_readahead_pos_advance (r : ch_readahead_t) (n : Nat) : ch_readahead_t :=
  { r with pos := r.pos + n }

/-- Modelled from the spec: `ch_readahead_pos_read_advance` of the missing
`clickhouse_net.h`; the read cursor moves forward by `n`. -/
def ch_readahead_pos_read_advance (r : ch_readahead_t) (n : Nat) : ch_readahead_t :=
  { r with pos_read := r.pos_read + n }

/-- Modelled from the spec: `ch_readahead_reuse` of the missing
`clickhouse_net.h`; "when a caller has fully consumed the unread region, reset
both cursors to zero", otherwise the channel is left as it is. -/
def ch_readahead_reuse (r : ch_readahead_t) : ch_readahead_t :=
  if ch_readahead_unread r = 0 then { r with pos := 0, pos_read := 0 } else r

/-- Modelled from the spec: `ch_readahead_init` of the missing
`clickhouse_net.h`; an empty channel of the configured capacity on `sock`. -/
def ch_readahead_init (d : Defs) (sock : Int) : ch_readahead_t :=
  { sock := sock, size := d.readahead_size, pos := 0, pos_read := 0, buf := [] }

/-- The bytes between the read cursor and the write cursor. -/
def unread_bytes (r : ch_readahead_t) : List Nat :=
  (r.buf.take r.pos).drop r.pos_read

/-- Memory after `bytes` have been stored at the write cursor. -/
def store_at_pos (r : ch_readahead_t) (bytes : List Nat) : ch_readahead_t :=
  { r with buf := r.buf.take r.pos ++ bytes ++ r.buf.drop (r.pos + bytes.length) }

/-- The buffer invariant: read cursor at most write cursor at most capacity. -/
def buffer_invariant (r : ch_readahead_t) : Prop :=
  r.pos_read ≤ r.pos ∧ r.pos ≤ r.size

instance (r : ch_readahead_t) : Decidable (buffer_invariant r) := by
  unfold buffer_invariant; infer_instance

/-! ## The operating system as a script -/

/-- Values of `errno` the code tells apart. -/
inductive Errno where
  | EAGAIN
  | EWOULDBLOCK
  | EINTR
  | EPIPE
  | ECONNRESET
  | EINPROGRESS
  | OTHER
deriving DecidableEq

/-- One answer of `send`: the value stored in `n`, and `errno` when `n < 0`. -/
structure SendResult where
  n : Int
  errno : Errno
deriving DecidableEq

/-- One answer of `recv`: the value stored in `n`; the bytes the kernel copied to
the write cursor when `n >= 0`; `errno` when `n < 0`; and, should the code wait
for readiness after a would-block, the value `select` returns and the text
`strerror(errno)` gives if that wait fails. -/
structure RecvResult where
  n : Int
  data : List Nat
  errno : Errno
  select_rc : Int
  strerror : String
deriving DecidableEq

/-- A socket call the code made: `send` with the bytes offered and the answer,
`recv` with the length requested and the answer, `select` with its answer. -/
inductive OsCall where
  | send (offered : List Nat) (n : Int)
  | recv (len : Nat) (n : Int)
  | select (rc : Int)
deriving DecidableEq

/-- The answers still to come and the calls made so far. -/
structure World where
  sendq : List SendResult
  recvq : List RecvResult
  trace : List OsCall
deriving DecidableEq

/-- Conversion of an unsigned value to `int` (two's complement, 32 bits). -/
def to_int (x : Nat) : Int :=
  if x % 2 ^ 32 < 2 ^ 31 then ((x % 2 ^ 32 : Nat) : Int) else ((x % 2 ^ 32 : Nat) : Int) - 2 ^ 32

/-! ## Wire codec (from `clickhouse_net.h`) -/

/-- Decoder of a varuint from a byte list: 7 bits per byte, little-endian, the
high bit says another byte follows; the value is kept in 64 bits. Gives the
value and the number of bytes consumed, or `none` when the bytes run out before
a terminating byte. -/
def decode_varuint_from (shift acc consumed : Nat) : List Nat → Option (Nat × Nat)
  | [] => none
  | b :: bs =>
    let acc1 := (acc + (b % 128) * 2 ^ shift) % 2 ^ 64
    if b % 256 < 128 then some (acc1, consumed + 1)
    else decode_varuint_from (shift + 7) acc1 (consumed + 1) bs

/-- Varuint decoder started at the first byte. -/
def decode_varuint (bytes : List Nat) : Option (Nat × Nat) :=
  decode_varuint_from 0 0 0 bytes

/-- Minimal-length varuint encoding, at most `fuel + 1` bytes. -/
def encode_varuint_fuel : Nat → Nat → List Nat
  | 0, x => [x % 128]
  | fuel + 1, x => if x < 128 then [x] else (x % 128 + 128) :: encode_varuint_fuel fuel (x / 128)

/-- Minimal-length varuint encoding of a 64-bit value (at most 10 bytes). -/
def encode_varuint (x : Nat) : List Nat := encode_varuint_fuel 9 (x % 2 ^ 64)

/-- Wire form of a string: varuint length, then the raw bytes. -/
def encode_string (s : List Nat) : List Nat := encode_varuint s.length ++ s

/-- Modelled from the spec: `read_varuint_binary` of the missing
`clickhouse_net.h`. It decodes a varuint at the read cursor and advances the
read cursor by the bytes consumed; when the unread bytes run out before a
terminating byte it reports a protocol error and hands back `varuint_fail`. -/
def read_varuint_binary (d : Defs) (r : ch_readahead_t) (e : ErrorState) :
    Nat × ch_readahead_t × ErrorState :=
  match decode_varuint (unread_bytes r) with
  | some (v, k) => (v, ch_readahead_pos_read_advance r k, e)
  | none =>
    (d.varuint_fail, ch_readahead_pos_read_advance r (ch_readahead_unread r),
      ch_error e "protocol error: truncated varuint")

/-- Modelled from the spec: `read_string_binary` of the missing
`clickhouse_net.h`. A varuint length and then that many raw bytes; when the
length cannot be read or exceeds the unread bytes it reports a protocol error
and returns `NULL` instead of reading past the data. -/
def read_string_binary (r : ch_readahead_t) (e : ErrorState) :
    Option (List Nat) × ch_readahead_t × ErrorState :=
  match decode_varuint (unread_bytes r) with
  | none =>
    (none, ch_readahead_pos_read_advance r (ch_readahead_unread r),
      ch_error e "protocol error: truncated string length")
  | some (len, k) =>
    let r1 := ch_readahead_pos_read_advance r k
    if len ≤ ch_readahead_unread r1 then
      (some ((unread_bytes r1).take len), ch_readahead_pos_read_advance r1 len, e)
    else (none, r1, ch_error e "protocol error: truncated string")

/-- Modelled from the spec: `write_varuint_binary` of the missing
`clickhouse_net.h`; the encoding is stored at the write cursor, which advances
by its length. -/
def write_varuint_binary (r : ch_readahead_t) (x : Nat) : ch_readahead_t :=
  ch_readahead_pos_advance (store_at_pos r (encode_varuint x)) (encode_varuint x).length

/-- Modelled from the spec: `write_string_binary` of the missing
`clickhouse_net.h`; varuint length prefix followed by the raw bytes. -/
def write_string_binary (r : ch_readahead_t) (s : List Nat) : ch_readahead_t :=
  ch_readahead_pos_advance (store_at_pos r (encode_string s)) (encode_string s).length

/-- Modelled from the spec: `write_char_binary` of the missing
`clickhouse_net.h`; one byte. -/
def write_char_binary (r : ch_readahead_t) (c : Nat) : ch_readahead_t :=
  ch_readahead_pos_advance (store_at_pos r [c % 256]) 1

/-- Modelled from the spec: `write_bool_binary` of the missing
`clickhouse_net.h`; one byte, 1 for true and 0 for false. -/
def write_bool_binary (r : ch_readahead_t) (b : Bool) : ch_readahead_t :=
  ch_readahead_pos_advance (store_at_pos r [if b then 1 else 0]) 1

/-! ## Connection and program state -/

/-- The fields of `ch_binary_connection_t` (declared in the missing
`clickhouse_binary.h`) that this file reads or writes. `in_` is the C field
`in`. Strings yet unset are `none`, as after `calloc`. -/
structure ch_binary_connection_t where
  sock : Int
  host : List Nat
  port : Nat
  user : List Nat
  password : List Nat
  default_database : List Nat
  client_name : List Nat
  address_str : List Nat
  server_name : Option (List Nat)
  server_version_major : Nat
  server_version_minor : Nat
  server_version_patch : Nat
  server_revision : Nat
  server_timezone : Option (List Nat)
  server_display_name : Option (List Nat)
  compression : Int
  connection_timeout : Int
  recv_timeout : Int
  send_timeout : Int
  in_ : ch_readahead_t
  out : ch_readahead_t
deriving DecidableEq

/-- Everything a call can read or change: the connection, the error statics and
the operating system. -/
structure State where
  conn : ch_binary_connection_t
  err : ErrorState
  world : World
deriving DecidableEq

/-! ## `has_control_character` (lines 148-156) -/

/-- Value of a plain `char` holding byte `b`, promoted to `int`. -/
def char_value (is_signed : Bool) (b : Nat) : Int :=
  if is_signed && decide (128 ≤ b % 256) then ((b % 256 : Nat) : Int) - 256 else ((b % 256 : Nat) : Int)

/-- `has_control_character(s)`: true at the first `s[i] < 31`. -/
def has_control_character (is_signed : Bool) : List Nat → Bool
  | [] => false
  | b :: bs => if char_value is_signed b < 31 then true else has_control_character is_signed bs

/-! ## `ch_binary_send` (lines 158-211) -/

/-- The code of `ch_binary_send` from the label `again`: one `send` of the unread
bytes, the read cursor moved past all of them, then the inspection of `n`. -/
def ch_binary_send_again (out : ch_readahead_t) (e : ErrorState) :
    List SendResult → List OsCall →
    Option (Bool × ch_readahead_t × ErrorState × List SendResult × List OsCall)
  | [], _ => none
  | x :: q, tr =>
    let tr1 := tr ++ [OsCall.send (unread_bytes out) x.n]
    let out1 := ch_readahead_pos_read_advance out (ch_readahead_unread out)
    if x.n < 0 then
      match x.errno with
      | Errno.EAGAIN => ch_binary_send_again out1 e q tr1
      | Errno.EWOULDBLOCK => ch_binary_send_again out1 e q tr1
      | Errno.EINTR => ch_binary_send_again out1 e q tr1
      | Errno.EPIPE =>
        some (false, out1, ch_error e "server closed the connection unexpectedly", q, tr1)
      | Errno.ECONNRESET =>
        some (false, out1, ch_error e "server closed the connection unexpectedly", q, tr1)
      | _ => some (false, out1, ch_error e "could not send data to server", q, tr1)
    else some (true, out1, e, q, tr1)

/-- `ch_binary_send(conn)`. -/
def ch_binary_send (s : State) : Option (Bool × State) :=
  let e0 := ch_reset_error s.err
  if ch_readahead_unread s.conn.out = 0 then some (true, { s with err := e0 })
  else
    match ch_binary_send_again s.conn.out e0 s.world.sendq s.world.trace with
    | none => none
    | some (res, out1, e1, q, tr) =>
      some (res, { conn := { s.conn with out := out1 }, err := e1,
                   world := { s.world with sendq := q, trace := tr } })

/-! ## `sock_read` (lines 213-277) -/

/-- The code of `sock_read` from the label `again`; `left` was computed once on
entry. -/
def sock_read_again (r : ch_readahead_t) (left : Nat) (e : ErrorState) :
    List RecvResult → List OsCall →
    Option (Int × ch_readahead_t × ErrorState × List RecvResult × List OsCall)
  | [], _ => none
  | x :: q, tr =>
    let tr1 := tr ++ [OsCall.recv left x.n]
    if 0 ≤ x.n then
      some (x.n, ch_readahead_pos_advance (store_at_pos r (x.data.take x.n.toNat)) x.n.toNat,
            e, q, tr1)
    else
      match x.errno with
      | Errno.EAGAIN =>
        let tr2 := tr1 ++ [OsCall.select x.select_rc]
        if 0 < x.select_rc then sock_read_again r left e q tr2
        else if x.select_rc = 0 then some (-1, r, ch_error e "recv timed out", q, tr2)
        else some (-1, r, ch_error e ("recv error: " ++ x.strerror), q, tr2)
      | Errno.EWOULDBLOCK =>
        let tr2 := tr1 ++ [OsCall.select x.select_rc]
        if 0 < x.select_rc then sock_read_again r left e q tr2
        else if x.select_rc = 0 then some (-1, r, ch_error e "recv timed out", q, tr2)
        else some (-1, r, ch_error e ("recv error: " ++ x.strerror), q, tr2)
      | Errno.EINTR => sock_read_again r left e q tr1
      | Errno.ECONNRESET =>
        some (-1, r, ch_error e "server closed the connection unexpectedly", q, tr1)
      | _ => some (-1, r, ch_error e "could not send data to server", q, tr1)

/-- `sock_read(readahead)`. -/
def sock_read (r : ch_readahead_t) (e : ErrorState) (w : World) :
    Option (Int × ch_readahead_t × ErrorState × World) :=
  let left := ch_readahead_left r
  if left = 0 then some (to_int (ch_readahead_unread r), r, e, w)
  else if r.sock = 0 then some (0, r, e, w)
  else
    match sock_read_again r left e w.recvq w.trace with
    | none => none
    | some (n, r1, e1, q, tr) => some (n, r1, e1, { w with recvq := q, trace := tr })

/-! ## `ch_binary_read_header` (lines 279-305) -/

/-- Lines 291-304 of `ch_binary_read_header`: the emptiness check, the varuint
tag and the bound check. -/
def ch_binary_read_header_tag (d : Defs) (s : State) : Int × State :=
  if ch_readahead_unread s.conn.in_ = 0 then
    (-1, { s with err := ch_error s.err "server communication error" })
  else
    match read_varuint_binary d s.conn.in_ s.err with
    | (val, in1, e1) =>
      if d.CH_MaxPacketType ≤ val then
        (-1, { s with conn := { s.conn with in_ := in1 },
                      err := ch_error e1 "imcompatible server, invalid packet type" })
      else (to_int val, { s with conn := { s.conn with in_ := in1 }, err := e1 })

/-- `ch_binary_read_header(conn)`. -/
def ch_binary_read_header (d : Defs) (s : State) : Option (Int × State) :=
  let in0 := ch_readahead_reuse s.conn.in_
  if ch_readahead_unread in0 = 0 then
    match sock_read in0 s.err s.world with
    | none => none
    | some (n, in1, e1, w1) =>
      if n ≤ 0 then some (-1, { conn := { s.conn with in_ := in1 }, err := e1, world := w1 })
      else some (ch_binary_read_header_tag d
                  { conn := { s.conn with in_ := in1 }, err := e1, world := w1 })
  else some (ch_binary_read_header_tag d { s with conn := { s.conn with in_ := in0 } })

/-! ## `say_hello` (lines 308-335) -/

/-- `say_hello(conn)`. -/
def say_hello (d : Defs) (s : State) : Option (Bool × State) :=
  let e0 := ch_reset_error s.err
  if has_control_character d.char_signed s.conn.default_database
      || has_control_character d.char_signed s.conn.user
      || has_control_character d.char_signed s.conn.password
      || has_control_character d.char_signed s.conn.client_name then
    some (false,
      { s with
        err := ch_error e0 "Parameters 'default_database', 'user' and 'password' must not contain ASCII control characters" })
  else
    let in0 := ch_readahead_reuse s.conn.in_
    if s.conn.out.pos ≠ 0 then none
    else
      let o1 := write_varuint_binary s.conn.out d.CH_Client_Hello
      let o2 := write_string_binary o1 s.conn.client_name
      let o3 := write_varuint_binary o2 d.VERSION_MAJOR
      let o4 := write_varuint_binary o3 d.VERSION_MINOR
      let o5 := write_varuint_binary o4 d.VERSION_REVISION
      let o6 := write_string_binary o5 s.conn.default_database
      let o7 := write_string_binary o6 s.conn.user
      let o8 := write_string_binary o7 s.conn.password
      ch_binary_send { s with conn := { s.conn with in_ := in0, out := o8 }, err := e0 }

/-! ## `get_hello` (lines 338-386) -/

/-- Lines 381-385 of `get_hello`: the final look at the error flag. -/
def get_hello_finish (s : State) : Bool × State :=
  if 0 < ch_binary_errno s.err then (false, s) else (true, s)

/-- Lines 370-385 of `get_hello`: the version patch, read or defaulted. -/
def get_hello_version_patch (d : Defs) (s : State) : Bool × State :=
  if d.DBMS_MIN_REVISION_WITH_VERSION_PATCH ≤ s.conn.server_revision then
    match read_varuint_binary d s.conn.in_ s.err with
    | (patch, in1, e1) =>
      get_hello_finish { s with conn := { s.conn with server_version_patch := patch, in_ := in1 },
                                err := e1 }
  else
    get_hello_finish { s with conn := { s.conn with server_version_patch := s.conn.server_revision } }

/-- Lines 364-385 of `get_hello`: the display name when the revision has it. -/
def get_hello_display_name (d : Defs) (s : State) : Bool × State :=
  if d.DBMS_MIN_REVISION_WITH_SERVER_DISPLAY_NAME ≤ s.conn.server_revision then
    match read_string_binary s.conn.in_ s.err with
    | (none, in1, e1) =>
      (false, { s with conn := { s.conn with server_display_name := none, in_ := in1 }, err := e1 })
    | (some name, in1, e1) =>
      get_hello_version_patch d
        { s with conn := { s.conn with server_display_name := some name, in_ := in1 }, err := e1 }
  else get_hello_version_patch d s

/-- Lines 358-385 of `get_hello`: the timezone when the revision has it. -/
def get_hello_timezone (d : Defs) (s : State) : Bool × State :=
  if d.DBMS_MIN_REVISION_WITH_SERVER_TIMEZONE ≤ s.conn.server_revision then
    match read_string_binary s.conn.in_ s.err with
    | (none, in1, e1) =>
      (false, { s with conn := { s.conn with server_timezone := none, in_ := in1 }, err := e1 })
    | (some tz, in1, e1) =>
      get_hello_display_name d
        { s with conn := { s.conn with server_timezone := some tz, in_ := in1 }, err := e1 }
  else get_hello_display_name d s

/-- Lines 350-385 of `get_hello`: the payload of a Hello packet. -/
def get_hello_payload (d : Defs) (s : State) : Bool × State :=
  match read_string_binary s.conn.in_ s.err with
  | (none, in1, e1) =>
    (false, { s with conn := { s.conn with server_name := none, in_ := in1 }, err := e1 })
  | (some name, in1, e1) =>
    match read_varuint_binary d in1 e1 with
    | (major, in2, e2) =>
      match read_varuint_binary d in2 e2 with
      | (minor, in3, e3) =>
        match read_varuint_binary d in3 e3 with
        | (revision, in4, e4) =>
          get_hello_timezone d
            { s with conn := { s.conn with server_name := some name,
                                           server_version_major := major,
                                           server_version_minor := minor,
                                           server_revision := revision,
                                           in_ := in4 },
                     err := e4 }

/-- `get_hello(conn)`. -/
def get_hello (d : Defs) (s : State) : Option (Bool × State) :=
  match ch_binary_read_header d { s with err := ch_reset_error s.err } with
  | none => none
  | some (packet_type, s1) =>
    if packet_type < 0 then some (false, s1)
    else if packet_type = (d.CH_Hello : Int) then some (get_hello_payload d s1)
    else
      some (false, { s1 with err := ch_error s1.err ("wrong packet on hello: " ++ toString packet_type) })

/-! ## `ch_ping` (lines 388-416) -/

/-- The code of `ch_ping` from the label `again`, at most `fuel` header reads. -/
def ch_ping_again (d : Defs) : Nat → State → Option (Bool × State)
  | 0, _ => none
  | fuel + 1, s =>
    match ch_binary_read_header d s with
    | none => none
    | some (packet_type, s1) =>
      if packet_type = (d.CH_Progress : Int) then ch_ping_again d fuel s1
      else if packet_type = (d.CH_Pong : Int) then some (true, s1)
      else some (false, s1)

/-- `ch_ping(conn)`, with a bound on the number of header reads. -/
def ch_ping (d : Defs) (fuel : Nat) (s : State) : Option (Bool × State) :=
  let e0 := ch_reset_error s.err
  let out0 := ch_readahead_reuse s.conn.out
  if out0.pos ≠ 0 then none
  else
    match ch_binary_send { s with conn := { s.conn with out := write_varuint_binary out0 d.CH_Client_Ping },
                                  err := e0 } with
    | none => none
    | some (res, s1) => if res then ch_ping_again d fuel s1 else some (false, s1)

/-! ## Client info and `ch_binary_send_query` (lines 418-522) -/

/-- Bytes of a string literal of the source. -/
def cstr (s : String) : List Nat := s.toList.map (fun c => c.toNat)

/-- What the C library answers inside `get_default_client_info`: the return code
of `gethostname` and the bytes then found in `hostname`, the return code of
`getlogin_r` and the bytes then found in `os_user`, and the text of
`strerror(errno)`. -/
structure ClientOs where
  gethostname_rc : Int
  hostname : List Nat
  getlogin_rc : Int
  os_user : List Nat
  strerror : String

/-- Names that `write_client_info` and `ch_binary_send_query` use and that no
declaration of the file binds (`client_name`, `server_protocol_revision`), and
the `int` a caller receives when control leaves these two functions at the
closing brace, where the source has no `return`. -/
structure FreeNames where
  client_name : List Nat
  server_protocol_revision : Nat
  write_client_info_ret : Int
  send_query_ret : Int

/-- The members of `ch_binary_client_info_t` that are written to the wire. -/
structure ch_binary_client_info_t where
  os_user : List Nat
  hostname : List Nat
  version_major : Nat
  version_minor : Nat
  version_patch : Nat
  version_revision : Nat

/-- `get_default_client_info()`: `gethostname` answering 0 takes the error exit;
`getlogin_r` answering 0 empties `os_user`. The call to the undeclared
`client_infofillOSUserHostNameAndVersionInfo` is left out. -/
def get_default_client_info (d : Defs) (os : ClientOs) (e : ErrorState) :
    Option ch_binary_client_info_t × ErrorState :=
  if os.gethostname_rc = 0 then
    (none, ch_error e ("could not get hostname: " ++ os.strerror))
  else
    (some { os_user := if os.getlogin_rc = 0 then [] else os.os_user
            hostname := os.hostname
            version_major := d.DBMS_VERSION_MAJOR
            version_minor := d.DBMS_VERSION_MINOR
            version_patch := d.DBMS_VERSION_PATCH
            version_revision := d.DBMS_VERSION_REVISION }, e)

/-- `write_client_info(conn, query_id)`. -/
def write_client_info (d : Defs) (os : ClientOs) (f : FreeNames) (s : State)
    (query_id : List Nat) : Int × State :=
  match get_default_client_info d os s.err with
  | (none, e1) => (-1, { s with err := e1 })
  | (some client_info, e1) =>
    let o1 := write_char_binary s.conn.out d.CH_KIND_INITIAL_QUERY
    let o2 := write_string_binary o1 s.conn.user
    let o3 := write_string_binary o2 query_id
    let o4 := write_string_binary o3 s.conn.address_str
    let o5 := write_char_binary o4 1
    let o6 := write_string_binary o5 client_info.os_user
    let o7 := write_string_binary o6 client_info.hostname
    let o8 := write_string_binary o7 f.client_name
    let o9 := write_varuint_binary o8 client_info.version_major
    let o10 := write_varuint_binary o9 client_info.version_minor
    let o11 := write_varuint_binary o10 client_info.version_revision
    let o12 :=
      if d.DBMS_MIN_REVISION_WITH_QUOTA_KEY_IN_CLIENT_INFO ≤ f.server_protocol_revision then
        write_string_binary o11 []
      else o11
    let o13 :=
      if d.DBMS_MIN_REVISION_WITH_VERSION_PATCH ≤ f.server_protocol_revision then
        write_varuint_binary o12 client_info.version_patch
      else o12
    (f.write_client_info_ret, { s with conn := { s.conn with out := o13 }, err := e1 })

/-- Lines 504-514 of `ch_binary_send_query`: settings placeholder, stage,
compression flag and query text. Lines 516-521 name `with_pending_data`,
`sendData`, `Block` and `out`, which the file does not declare; they are left
out. -/
def ch_binary_send_query_rest (f : FreeNames) (s : State) (query : Option (List Nat))
    (stage : Nat) (settings : Bool) : Option (Int × State) :=
  let o1 := if settings then s.conn.out else write_string_binary s.conn.out []
  let o2 := write_varuint_binary o1 stage
  let o3 := write_bool_binary o2 (decide (0 < s.conn.compression))
  match query with
  | none => none
  | some q =>
    some (f.send_query_ret, { s with conn := { s.conn with out := write_string_binary o3 q } })

/-- `ch_binary_send_query(conn, query, query_id, stage, settings)`; `settings`
tells whether the pointer is non-NULL. -/
def ch_binary_send_query (d : Defs) (os : ClientOs) (f : FreeNames) (s : State)
    (query : Option (List Nat)) (query_id : Option (List Nat)) (stage : Nat)
    (settings : Bool) : Option (Int × State) :=
  let e0 := ch_reset_error s.err
  let out0 := ch_readahead_reuse s.conn.out
  let o1 := write_varuint_binary out0 d.CH_Client_Query
  let qid := match query_id with
    | none => []
    | some q => q
  let o2 := write_string_binary o1 qid
  let s2 : State := { s with conn := { s.conn with out := o2 }, err := e0 }
  if s.conn.server_revision = 0 then none
  else if d.DBMS_MIN_REVISION_WITH_CLIENT_INFO ≤ s.conn.server_revision then
    match write_client_info d os f s2 qid with
    | (rc, s3) =>
      if rc ≠ 0 then some (-1, s3)
      else ch_binary_send_query_rest f s3 query stage settings
  else ch_binary_send_query_rest f s2 query stage settings

/-! ## `ch_connect` and `ch_binary_connect` (lines 58-146, 524-631) -/

/-- Address families `ch_connect` tells apart. -/
inductive Family where
  | AF_INET
  | AF_INET6
  | AF_UNIX
  | OTHER
deriving DecidableEq

/-- What the operating system answers while a connection is set up:
`inet_pton`, `getaddrinfo` and the family of the address it yields, `socket`,
`connect` and its `errno`, the readiness wait, the two `setsockopt` calls, the
texts of `strerror` and of the `%m` conversion, and what `get_ipaddress`
returns. -/
structure ConnectOs where
  inet_pton_rc : Int
  getaddrinfo_rc : Int
  ai_family : Family
  socket_rc : Int
  connect_rc : Int
  connect_errno : Errno
  select_rc : Int
  nodelay_rc : Int
  keepalive_rc : Int
  strerror : String
  errno_text : String
  ipaddress : Option (List Nat)

/-- The code of `ch_connect` from the label `done`: the two socket options. -/
def ch_connect_done (os : ConnectOs) (sock : Int) (e : ErrorState) : Int × ErrorState :=
  if os.nodelay_rc < 0 then
    (-1, ch_error e ("setsockopt(TCP_NODELAY) failed: " ++ os.errno_text))
  else if os.keepalive_rc < 0 then
    (-1, ch_error e ("setsockopt(SO_KEEPALIVE) failed: " ++ os.errno_text))
  else (sock, e)

/-- `ch_connect(sa, timeout)`: the socket, or -1. -/
def ch_connect (os : ConnectOs) (sa_family : Family) (e : ErrorState) : Int × ErrorState :=
  let sock := os.socket_rc
  if sock = -1 then (-1, e)
  else if sa_family = Family.OTHER then (-1, e)
  else if os.connect_rc = 0 then ch_connect_done os sock e
  else if os.connect_errno = Errno.EINPROGRESS then
    if os.select_rc = 0 then (-1, ch_error e "connection timed out")
    else if os.select_rc < 0 then (-1, ch_error e ("connection error: " ++ os.strerror))
    else ch_connect_done os sock e
  else (-1, ch_error e ("connection error: " ++ os.strerror))

/-- `ch_binary_disconnect(conn)` releases the socket and the memory; nothing of
it is visible in the state that remains. -/
def ch_binary_disconnect (_conn : ch_binary_connection_t) : Unit := ()

/-- Lines 597-631 of `ch_binary_connect`: the connection object is built and
the Hello packets are exchanged. -/
def ch_binary_connect_handshake (d : Defs) (host : List Nat) (port : Nat)
    (default_database user password client_name : Option (List Nat))
    (connection_timeout : Int) (sock : Int) (address_str : Option (List Nat))
    (e : ErrorState) (w : World) : Option (Option ch_binary_connection_t × ErrorState × World) :=
  match address_str with
  | none => none
  | some addr =>
    let conn : ch_binary_connection_t :=
      { sock := sock
        host := host
        port := port
        user := user.getD (cstr "default")
        password := password.getD (cstr "")
        default_database := default_database.getD (cstr "default")
        client_name := client_name.getD (cstr "fdw")
        address_str := addr
        server_name := none
        server_version_major := 0
        server_version_minor := 0
        server_version_patch := 0
        server_revision := 0
        server_timezone := none
        server_display_name := none
        compression := 0
        connection_timeout := connection_timeout
        recv_timeout := 60
        send_timeout := 60
        in_ := ch_readahead_init d sock
        out := ch_readahead_init d sock }
    match say_hello d { conn := conn, err := e, world := w } with
    | none => none
    | some (false, s1) => some (none, s1.err, s1.world)
    | some (true, s1) =>
      match get_hello d s1 with
      | none => none
      | some (true, s2) => some (some s2.conn, s2.err, s2.world)
      | some (false, s2) => some (none, s2.err, s2.world)

/-- `ch_binary_connect(host, port, default_database, user, password,
client_name, connection_timeout)`; a `NULL` result is `none` inside. -/
def ch_binary_connect (d : Defs) (os : ConnectOs) (host : Option (List Nat)) (port : Nat)
    (default_database user password client_name : Option (List Nat))
    (connection_timeout : Int) (e : ErrorState) (w : World) :
    Option (Option ch_binary_connection_t × ErrorState × World) :=
  let e0 := ch_reset_error e
  match host with
  | none => some (none, ch_error e0 "host or port wasn't specified", w)
  | some h =>
    if port = 0 then some (none, ch_error e0 "host or port wasn't specified", w)
    else
      let literal_family := if 58 ∈ h then Family.AF_INET6 else Family.AF_INET
      if os.inet_pton_rc ≠ 1 ∧ os.getaddrinfo_rc ≠ 0 then
        some (none, ch_error e0 "could not resolve host and port", w)
      else
        let sa_family := if os.inet_pton_rc ≠ 1 then os.ai_family else literal_family
        match ch_connect os sa_family e0 with
        | (sock, e1) =>
          let address_str := if 0 < sock then os.ipaddress else none
          if sock = -1 then
            some (none, ch_error e1 "could not create connection to ClickHouse", w)
          else
            ch_binary_connect_handshake d h port default_database user password client_name
              connection_timeout sock address_str e1 w

/-! ## Concrete inputs on which the code is evaluated -/

/-- A connection as `ch_binary_connect` builds it, before the handshake:
socket 5, user and database "default", client name "fdw", both channels empty. -/
def fresh_conn : ch_binary_connection_t :=
  { sock := 5
    host := cstr "10.0.0.1"
    port := 9000
    user := cstr "default"
    password := []
    default_database := cstr "default"
    client_name := cstr "fdw"
    address_str := cstr "10.0.0.1"
    server_name := none
    server_version_major := 0
    server_version_minor := 0
    server_version_patch := 0
    server_revision := 0
    server_timezone := none
    server_display_name := none
    compression := 0
    connection_timeout := 1
    recv_timeout := 60
    send_timeout := 60
    in_ := ch_readahead_init clickhouse_defs 5
    out := ch_readahead_init clickhouse_defs 5 }

/-- A world in which `send` and `recv` answer as listed and no call was made. -/
def script (sends : List SendResult) (recvs : List RecvResult) : World :=
  { sendq := sends, recvq := recvs, trace := [] }

/-- A `recv` that delivers `data` in full. -/
def recv_ok (data : List Nat) : RecvResult :=
  { n := data.length, data := data, errno := Errno.OTHER, select_rc := 0, strerror := "" }

/-- A `send` that accepts `n` bytes. -/
def send_ok (n : Int) : SendResult := { n := n, errno := Errno.OTHER }

/-- The connection with four bytes waiting in the outbound channel. -/
def conn_four_unsent : ch_binary_connection_t :=
  { fresh_conn with out := { fresh_conn.out with pos := 4, buf := [1, 2, 3, 4] } }

/-- What an observer sees of a boolean call: the result, the error statics, the
cursors and unread bytes of both channels, and the socket calls made. -/
def observe (x : Option (Bool × State)) :
    Option (Bool × Int × Option String × (Nat × Nat) × (Nat × Nat) × List OsCall) :=
  x.map (fun r => (r.1, ch_binary_errno r.2.err, ch_binary_last_error r.2.err,
    (r.2.conn.in_.pos_read, r.2.conn.in_.pos), (r.2.conn.out.pos_read, r.2.conn.out.pos),
    r.2.world.trace))

/-- The connection after a handshake with a server of revision 54441. -/
def handshaken_conn : ch_binary_connection_t :=
  { fresh_conn with server_name := some (cstr "ClickHouse"), server_version_major := 19,
                    server_version_minor := 17, server_version_patch := 4,
                    server_revision := 54441 }

/-- A host on which `gethostname` succeeds (returns 0) and `getlogin_r` fails. -/
def host_os : ClientOs :=
  { gethostname_rc := 0, hostname := cstr "pg1", getlogin_rc := 1, os_user := cstr "postgres",
    strerror := "Success" }

/-- The free names bound the way the claim reads them: the client name of the
connection and its negotiated revision; both functions return 0 at the brace. -/
def free_names : FreeNames :=
  { client_name := cstr "fdw", server_protocol_revision := 54441,
    write_client_info_ret := 0, send_query_ret := 0 }

/-- A peer that does not answer: `connect` reports `EINPROGRESS` and the
readiness wait ends with no descriptor ready. -/
def silent_peer : ConnectOs :=
  { inet_pton_rc := 1, getaddrinfo_rc := 0, ai_family := Family.AF_INET, socket_rc := 5,
    connect_rc := -1, connect_errno := Errno.EINPROGRESS, select_rc := 0, nodelay_rc := 0,
    keepalive_rc := 0, strerror := "Operation now in progress", errno_text := "",
    ipaddress := some (cstr "10.0.0.1") }

/-- A `recv` answered with at most the length it was asked for; other calls
are not constrained. -/
def recv_answer_fits : OsCall → Bool
  | OsCall.recv len n => decide (n ≤ (len : Int))
  | _ => true

/-- An inbound channel of capacity 8 holding four unread bytes, four free. -/
def half_full_channel : ch_readahead_t :=
  { sock := 5, size := 8, pos := 4, pos_read := 0, buf := [1, 2, 3, 4] }

/-- An inbound channel of capacity 4 whose write cursor is at the capacity, with
three bytes unread. -/
def full_channel : ch_readahead_t :=
  { sock := 5, size := 4, pos := 4, pos_read := 1, buf := [1, 2, 3, 4] }

/-- The bytes that stand at the read cursor when `ch_binary_read_header`, called
in state `s` and returning in state `s1`, decodes the tag: the inbound memory up
to the write cursor as the call leaves it, from the read cursor as `reuse` left
it. -/
def tag_bytes (s s1 : State) : List Nat :=
  (s1.conn.in_.buf.take s1.conn.in_.pos).drop (ch_readahead_reuse s.conn.in_).pos_read

/-- Channel `c` holds at its read cursor a complete varuint of value `v`, and
`c1` is `c` with the read cursor moved past it. -/
def reads_varuint (c : ch_readahead_t) (v : Nat) (c1 : ch_readahead_t) : Prop :=
  ∃ k, decode_varuint (unread_bytes c) = some (v, k) ∧ c1 = ch_readahead_pos_read_advance c k

/-- Channel `c` holds at its read cursor a complete string `str` (a varuint
length and that many bytes), and `c1` is `c` with the read cursor moved past
it. -/
def reads_string (c : ch_readahead_t) (str : List Nat) (c1 : ch_readahead_t) : Prop :=
  ∃ len k, decode_varuint (unread_bytes c) = some (len, k) ∧
    len ≤ ch_readahead_unread (ch_readahead_pos_read_advance c k) ∧
    str = (unread_bytes (ch_readahead_pos_read_advance c k)).take len ∧
    c1 = ch_readahead_pos_read_advance (ch_readahead_pos_read_advance c k) len

/-- The state in which the first `recv` delivers a header whose tag is 12, the
value of `CH_MaxPacketType`, followed by one more byte. -/
def tag_out_of_range_state : State :=
  ⟨fresh_conn, ErrorState.init, script [] [recv_ok [12, 7]]⟩

/-- The state `ch_binary_read_header` leaves from `tag_out_of_range_state`. -/
def tag_out_of_range_after : State :=
  ⟨{ fresh_conn with in_ := { fresh_conn.in_ with pos := 2, pos_read := 1, buf := [12, 7] } },
    ch_error ErrorState.init "imcompatible server, invalid packet type",
    ⟨[], [], [OsCall.recv 8192 2]⟩⟩

/-- A server Hello of revision 54100: name "CH", version 19.17, timezone "UTC";
the revision is above the timezone threshold and below the other two. -/
def hello_54100 : List Nat := [0, 2, 67, 72, 19, 17, 212, 166, 3, 3, 85, 84, 67]

/-- The state in which the first `recv` delivers `hello_54100`. -/
def hello_54100_state : State :=
  ⟨fresh_conn, ErrorState.init, script [] [recv_ok hello_54100]⟩

/-- The state `get_hello` leaves from `hello_54100_state`. -/
def hello_54100_after : State :=
  ⟨{ fresh_conn with server_name := some [67, 72], server_version_major := 19,
                     server_version_minor := 17, server_version_patch := 54100,
                     server_revision := 54100, server_timezone := some [85, 84, 67],
                     in_ := { fresh_conn.in_ with pos := 13, pos_read := 13, buf := hello_54100 } },
    ErrorState.init, ⟨[], [], [OsCall.recv 8192 13]⟩⟩

/-! ## Theorems -/

/-- C1 (code at the failing input): four bytes are unread in the outbound
channel. When `send` accepts only two of them, `ch_binary_send` returns true
after that single call with the read cursor advanced by four. When `send` first
reports `EAGAIN`, the retry offers no bytes at all and `ch_binary_send` returns
true with nothing accepted. -/
theorem C1_send_reports_success_without_flushing :
    observe (ch_binary_send ⟨conn_four_unsent, ErrorState.init, script [send_ok 2] []⟩)
      = some (true, 0, none, (0, 0), (4, 4), [OsCall.send [1, 2, 3, 4] 2]) ∧
    observe (ch_binary_send ⟨conn_four_unsent, ErrorState.init,
        script [⟨-1, Errno.EAGAIN⟩, send_ok 0] []⟩)
      = some (true, 0, none, (0, 0), (4, 4),
          [OsCall.send [1, 2, 3, 4] (-1), OsCall.send [] 0]) := by
  constructor <;> rfl

/-- C2 (code at the failing input): when the peer closes the connection (`recv`
returns 0) `get_hello` returns false with `ch_binary_errno() = 0` and
`ch_binary_last_error() = NULL`; when the server answers a ping with the
in-range tag 2 (Exception) `ch_ping` returns false, again with no error set. -/
theorem C2_failure_without_error_state :
    observe (get_hello clickhouse_defs ⟨fresh_conn, ErrorState.init, script [] [recv_ok []]⟩)
      = some (false, 0, none, (0, 0), (0, 0), [OsCall.recv 8192 0]) ∧
    observe (ch_ping clickhouse_defs 1 ⟨fresh_conn, ErrorState.init,
        script [send_ok 1] [recv_ok [2]]⟩)
      = some (false, 0, none, (1, 1), (1, 1), [OsCall.send [4] 1, OsCall.recv 8192 1]) := by
  constructor <;> rfl

/-- C3 (code at the failing input): the check lets the control characters 0x1F
and 0x7F pass whatever the signedness of `char`, and where `char` is signed it
rejects the two-byte UTF-8 letter C3 A9; with the user name "\x1f" `say_hello`
writes the Hello packet and sends all 21 bytes of it. -/
theorem C3_control_character_check_inexact :
    (∀ sg, has_control_character sg [0x1F] = false) ∧
    (∀ sg, has_control_character sg [0x7F] = false) ∧
    has_control_character true [0xC3, 0xA9] = true ∧
    observe (say_hello clickhouse_defs
        ⟨{ fresh_conn with user := [0x1F] }, ErrorState.init, script [send_ok 21] []⟩)
      = some (true, 0, none, (0, 0), (21, 21),
          [OsCall.send [0, 3, 102, 100, 119, 1, 1, 169, 169, 3, 7, 100, 101, 102, 97, 117, 108,
            116, 1, 31, 0] 21]) := by
  refine ⟨?_, ?_, rfl, rfl⟩ <;> intro sg <;> cases sg <;> rfl

/-- C5 (code at the failing input): the server answers a ping with one Progress
packet (tag 3, payload 1, 10, 0) followed by Pong (tag 4). `ch_ping` reads the
Progress tag, then takes the first payload byte 1 for a packet tag and returns
false, leaving the rest of the payload and the Pong unread. -/
theorem C5_progress_payload_read_as_tag :
    observe (ch_ping clickhouse_defs 3 ⟨fresh_conn, ErrorState.init,
        script [send_ok 1] [recv_ok [3, 1, 10, 0, 4]]⟩)
      = some (false, 0, none, (2, 5), (1, 1), [OsCall.send [4] 1, OsCall.recv 8192 5]) := by
  rfl

/-- C6 (code at the failing input): `connect` is in progress and the readiness
wait returns 0. `ch_connect` sets "connection timed out" and returns -1, after
which `ch_binary_connect` stores another message over it: it returns `NULL` and
`ch_binary_last_error()` is "could not create connection to ClickHouse". -/
theorem C6_timeout_message_overwritten :
    ch_connect silent_peer Family.AF_INET (ch_reset_error ErrorState.init)
      = (-1, ch_error ErrorState.init "connection timed out") ∧
    (ch_binary_connect clickhouse_defs silent_peer (some (cstr "10.0.0.1")) 9000
        none none none none 1 ErrorState.init (script [] [])).map
      (fun r => (r.1.isSome, ch_binary_last_error r.2.1))
      = some (false, some "could not create connection to ClickHouse") := by
  constructor <;> rfl

/-- C10 (code at the failing input): the negotiated revision 54441 meets every
threshold and `gethostname` succeeds. `get_default_client_info` takes its error
exit on the return code 0, so `ch_binary_send_query` returns -1 with the error
set and with only the Query tag and the empty query id in the outbound buffer:
no client info, settings, stage, compression flag or query text. -/
theorem C10_send_query_stops_after_query_id :
    (ch_binary_send_query clickhouse_defs host_os free_names
        ⟨handshaken_conn, ErrorState.init, script [] []⟩ (some (cstr "SELECT 1")) none 2 false).map
      (fun r => (r.1, ch_binary_last_error r.2.err, unread_bytes r.2.conn.out))
      = some (-1, some "could not get hostname: Success", [1, 0]) := by
  rfl

/-! ### Cursor lemmas -/

theorem ch_binary_send_again_invariant (e : ErrorState) :
    ∀ (q : List SendResult) (out : ch_readahead_t) (tr : List OsCall) res out1 e1 q1 tr1,
      buffer_invariant out →
      ch_binary_send_again out e q tr = some (res, out1, e1, q1, tr1) →
      buffer_invariant out1 := by
  intro q
  induction q with
  | nil => intro out tr res out1 e1 q1 tr1 _ h; simp [ch_binary_send_again] at h
  | cons x q ih =>
    intro out tr res out1 e1 q1 tr1 hinv h
    have hadv : buffer_invariant
        (ch_readahead_pos_read_advance out (ch_readahead_unread out)) := by
      unfold buffer_invariant at *
      simp only [ch_readahead_pos_read_advance, ch_readahead_unread]
      omega
    simp only [ch_binary_send_again] at h
    split at h
    · split at h
      all_goals first
        | exact ih _ _ _ _ _ _ _ hadv h
        | (simp only [Option.some.injEq, Prod.mk.injEq] at h
           obtain ⟨-, hr, -⟩ := h
           subst hr
           exact hadv)
    · simp only [Option.some.injEq, Prod.mk.injEq] at h
      obtain ⟨-, hr, -⟩ := h
      subst hr
      exact hadv

theorem sock_read_again_invariant (r : ch_readahead_t) (left : Nat) (e : ErrorState)
    (hleft : left = ch_readahead_left r) (hinv : buffer_invariant r) :
    ∀ (q : List RecvResult) (tr : List OsCall) n r1 e1 q1 tr1,
      sock_read_again r left e q tr = some (n, r1, e1, q1, tr1) →
      (∀ c ∈ tr1, recv_answer_fits c = true) →
      buffer_invariant r1 := by
  intro q
  induction q with
  | nil => intro tr n r1 e1 q1 tr1 h; simp [sock_read_again] at h
  | cons x q ih =>
    intro tr n r1 e1 q1 tr1 h htr
    simp only [sock_read_again] at h
    split at h
    · rename_i hn
      simp only [Option.some.injEq, Prod.mk.injEq] at h
      obtain ⟨-, hr, -, -, ht⟩ := h
      subst hr
      have hx : x.n ≤ (left : Int) := by
        have := htr (OsCall.recv left x.n) (by rw [← ht]; simp)
        simpa [recv_answer_fits] using this
      unfold buffer_invariant at *
      simp only [ch_readahead_pos_advance, store_at_pos]
      simp only [ch_readahead_left] at hleft
      omega
    · split at h
      all_goals (try split at h)
      all_goals (try split at h)
      all_goals first
        | exact ih _ _ _ _ _ _ h htr
        | (simp only [Option.some.injEq, Prod.mk.injEq] at h
           obtain ⟨-, hr, -⟩ := h
           subst hr
           exact hinv)

theorem sock_read_invariant (r : ch_readahead_t) (e : ErrorState) (w : World)
    (hinv : buffer_invariant r) n r1 e1 w1
    (h : sock_read r e w = some (n, r1, e1, w1))
    (htr : ∀ c ∈ w1.trace, recv_answer_fits c = true) :
    buffer_invariant r1 := by
  unfold sock_read at h
  simp only at h
  split at h
  · simp only [Option.some.injEq, Prod.mk.injEq] at h
    obtain ⟨-, hr, -⟩ := h
    subst hr; exact hinv
  · split at h
    · simp only [Option.some.injEq, Prod.mk.injEq] at h
      obtain ⟨-, hr, -⟩ := h
      subst hr; exact hinv
    · split at h
      · simp at h
      · rename_i n' r' e' q' tr' heq
        simp only [Option.some.injEq, Prod.mk.injEq] at h
        obtain ⟨-, hr, -, hw⟩ := h
        subst hr
        refine sock_read_again_invariant r _ e rfl hinv _ _ _ _ _ _ _ heq ?_
        rw [← hw] at htr
        exact htr

theorem decode_varuint_from_consumed :
    ∀ (bytes : List Nat) (shift acc c v k : Nat),
      decode_varuint_from shift acc c bytes = some (v, k) →
      c < k ∧ k ≤ c + bytes.length := by
  intro bytes
  induction bytes with
  | nil => intro shift acc c v k h; simp [decode_varuint_from] at h
  | cons b bs ih =>
    intro shift acc c v k h
    simp only [decode_varuint_from] at h
    split at h
    · simp only [Option.some.injEq, Prod.mk.injEq] at h
      simp only [List.length_cons]
      omega
    · have := ih _ _ _ _ _ h
      simp only [List.length_cons]
      omega

theorem decode_varuint_consumed (bytes : List Nat) (v k : Nat)
    (h : decode_varuint bytes = some (v, k)) : 0 < k ∧ k ≤ bytes.length := by
  have := decode_varuint_from_consumed bytes 0 0 0 v k h
  omega

theorem unread_bytes_length (r : ch_readahead_t) :
    (unread_bytes r).length ≤ ch_readahead_unread r := by
  simp only [unread_bytes, ch_readahead_unread, List.length_drop, List.length_take]
  omega


theorem read_varuint_binary_invariant (d : Defs) (r : ch_readahead_t) (e : ErrorState)
    (hinv : buffer_invariant r) : buffer_invariant (read_varuint_binary d r e).2.1 := by
  unfold read_varuint_binary
  split
  · rename_i v k hdec
    have h1 := (decode_varuint_consumed _ _ _ hdec).2
    have h2 := unread_bytes_length r
    unfold buffer_invariant at *
    simp only [ch_readahead_pos_read_advance, ch_readahead_unread] at *
    omega
  · unfold buffer_invariant at *
    simp only [ch_readahead_pos_read_advance, ch_readahead_unread] at *
    omega

theorem ch_binary_read_header_tag_invariant (d : Defs) (s : State)
    (hinv : buffer_invariant s.conn.in_) :
    buffer_invariant (ch_binary_read_header_tag d s).2.conn.in_ := by
  unfold ch_binary_read_header_tag
  split
  · exact hinv
  · have h := read_varuint_binary_invariant d s.conn.in_ s.err hinv
    split
    rename_i val in1 e1 heq
    rw [heq] at h
    split <;> exact h

theorem ch_readahead_reuse_invariant (r : ch_readahead_t) (hinv : buffer_invariant r) :
    buffer_invariant (ch_readahead_reuse r) := by
  unfold ch_readahead_reuse
  split
  · unfold buffer_invariant; simp
  · exact hinv

theorem ch_binary_read_header_invariant (d : Defs) (s : State) (ret : Int) (s1 : State)
    (hinv : buffer_invariant s.conn.in_)
    (h : ch_binary_read_header d s = some (ret, s1))
    (htr : ∀ c ∈ s1.world.trace, recv_answer_fits c = true) :
    buffer_invariant s1.conn.in_ := by
  have hre := ch_readahead_reuse_invariant _ hinv
  unfold ch_binary_read_header at h
  simp only at h
  split at h
  · split at h
    · simp at h
    · rename_i n in1 e1 w1 heq
      have hw : (ch_binary_read_header_tag d
          { conn := { s.conn with in_ := in1 }, err := e1, world := w1 }).2.world = w1 := by
        unfold ch_binary_read_header_tag
        split
        · rfl
        · split; split <;> rfl
      split at h
      · simp only [Option.some.injEq, Prod.mk.injEq] at h
        obtain ⟨-, hs⟩ := h
        subst hs
        exact sock_read_invariant _ _ _ hre _ _ _ _ heq htr
      · simp only [Option.some.injEq] at h
        have hs : s1 = (ch_binary_read_header_tag d
          { conn := { s.conn with in_ := in1 }, err := e1, world := w1 }).2 := by rw [h]
        subst hs
        rw [hw] at htr
        exact ch_binary_read_header_tag_invariant d _
          (sock_read_invariant _ _ _ hre _ _ _ _ heq htr)
  · simp only [Option.some.injEq] at h
    have hs : s1 = (ch_binary_read_header_tag d
        { s with conn := { s.conn with in_ := ch_readahead_reuse s.conn.in_ } }).2 := by rw [h]
    subst hs
    exact ch_binary_read_header_tag_invariant d _ hre


/-- C7: the buffer invariant `pos_read <= pos <= size` is preserved. If it holds
on the outbound channel before `ch_binary_send`, it holds when the call
returns; if it holds on the inbound channel before `sock_read` or
`ch_binary_read_header`, it holds when the call returns, in every run where
each `recv` answered with at most the length requested; and `reuse` of a
channel with no unread bytes leaves both cursors at 0. -/
theorem C7_buffer_invariant_preserved (d : Defs) :
    (∀ (s s1 : State) (res : Bool), buffer_invariant s.conn.out →
        ch_binary_send s = some (res, s1) → buffer_invariant s1.conn.out) ∧
    (∀ (r r1 : ch_readahead_t) (e e1 : ErrorState) (w w1 : World) (n : Int),
        buffer_invariant r → sock_read r e w = some (n, r1, e1, w1) →
        (∀ c ∈ w1.trace, recv_answer_fits c = true) → buffer_invariant r1) ∧
    (∀ (s s1 : State) (ret : Int), buffer_invariant s.conn.in_ →
        ch_binary_read_header d s = some (ret, s1) →
        (∀ c ∈ s1.world.trace, recv_answer_fits c = true) → buffer_invariant s1.conn.in_) ∧
    (∀ r : ch_readahead_t, ch_readahead_unread r = 0 →
        (ch_readahead_reuse r).pos = 0 ∧ (ch_readahead_reuse r).pos_read = 0) := by
  refine ⟨?_, ?_, ?_, ?_⟩
  · intro s s1 res hinv h
    unfold ch_binary_send at h
    simp only at h
    split at h
    · simp only [Option.some.injEq, Prod.mk.injEq] at h
      obtain ⟨-, hs⟩ := h
      subst hs
      exact hinv
    · split at h
      · simp at h
      · rename_i res1 out1 e1 q tr heq
        simp only [Option.some.injEq, Prod.mk.injEq] at h
        obtain ⟨-, hs⟩ := h
        subst hs
        exact ch_binary_send_again_invariant _ _ _ _ _ _ _ _ _ hinv heq
  · intro r r1 e e1 w w1 n hinv h htr
    exact sock_read_invariant r e w hinv n r1 e1 w1 h htr
  · intro s s1 ret hinv h htr
    exact ch_binary_read_header_invariant d s ret s1 hinv h htr
  · intro r h
    simp [ch_readahead_reuse, h]

/-- C7 at concrete runs: a full `send` of four bytes, a `recv` of three bytes
into the half-full channel, a header read that receives the Pong tag, and the
reuse of a consumed channel. -/
theorem C7_buffer_invariant_preserved_witness :
    buffer_invariant ({ fresh_conn.out with pos := 4, pos_read := 4, buf := [1, 2, 3, 4] }) ∧
    buffer_invariant ({ half_full_channel with pos := 7, buf := [1, 2, 3, 4, 7, 8, 9] }) ∧
    buffer_invariant ({ fresh_conn.in_ with pos := 1, pos_read := 1, buf := [4] }) ∧
    ((ch_readahead_reuse { full_channel with pos_read := 4 }).pos = 0 ∧
      (ch_readahead_reuse { full_channel with pos_read := 4 }).pos_read = 0) :=
  ⟨(C7_buffer_invariant_preserved clickhouse_defs).1
      ⟨conn_four_unsent, ErrorState.init, script [send_ok 4] []⟩
      ⟨{ fresh_conn with out := { fresh_conn.out with pos := 4, pos_read := 4, buf := [1, 2, 3, 4] } },
        ErrorState.init, ⟨[], [], [OsCall.send [1, 2, 3, 4] 4]⟩⟩
      true (by decide) rfl,
   (C7_buffer_invariant_preserved clickhouse_defs).2.1
      half_full_channel { half_full_channel with pos := 7, buf := [1, 2, 3, 4, 7, 8, 9] }
      ErrorState.init ErrorState.init (script [] [recv_ok [7, 8, 9]]) ⟨[], [], [OsCall.recv 4 3]⟩ 3
      (by decide) rfl (by decide),
   (C7_buffer_invariant_preserved clickhouse_defs).2.2.1
      ⟨fresh_conn, ErrorState.init, script [] [recv_ok [4]]⟩
      ⟨{ fresh_conn with in_ := { fresh_conn.in_ with pos := 1, pos_read := 1, buf := [4] } },
        ErrorState.init, ⟨[], [], [OsCall.recv 8192 1]⟩⟩
      4 (by decide) rfl (by decide),
   (C7_buffer_invariant_preserved clickhouse_defs).2.2.2
      { full_channel with pos_read := 4 } rfl⟩

/-- C4 (the claim fails): the half-full channel has four unread bytes and four
free. `sock_read` calls `recv` for the four free bytes, stores the two bytes it
gets, moves the write cursor from 4 to 6 and returns 2, not the 4 unread bytes
and not without touching the socket. -/
theorem C4_pending_bytes_do_not_stop_recv :
    half_full_channel.pos_read < half_full_channel.pos ∧
    sock_read half_full_channel ErrorState.init (script [] [recv_ok [9, 9]])
      = some (2, { half_full_channel with pos := 6, buf := [1, 2, 3, 4, 9, 9] },
          ErrorState.init, ⟨[], [], [OsCall.recv 4 2]⟩) ∧
    sock_read half_full_channel ErrorState.init (script [] [recv_ok [9, 9]])
      ≠ some (4, half_full_channel, ErrorState.init, script [] [recv_ok [9, 9]]) := by
  refine ⟨by decide, rfl, by decide⟩

/-- C4 (amended): `sock_read` is gated on free capacity, not on unread bytes.
When no free capacity remains after the write cursor (`left = 0`) it makes no
socket call (world and trace are unchanged), leaves the channel and the error
state as they are, and returns the number of unread bytes converted to `int`.
When free capacity remains and the channel has a socket, it calls `recv` for
`left` bytes whether or not unread bytes are pending; a `recv` that answers
`n >= 0` moves the write cursor by `n`, and `n` is returned. -/
theorem C4_sock_read_gated_on_free_capacity (r : ch_readahead_t) (e : ErrorState) (w : World) :
    (ch_readahead_left r = 0 →
      sock_read r e w = some (to_int (ch_readahead_unread r), r, e, w)) ∧
    (∀ (x : RecvResult) (q : List RecvResult),
      ch_readahead_left r ≠ 0 → r.sock ≠ 0 → w.recvq = x :: q → 0 ≤ x.n →
      sock_read r e w
        = some (x.n,
            ch_readahead_pos_advance (store_at_pos r (x.data.take x.n.toNat)) x.n.toNat, e,
            { w with recvq := q,
                     trace := w.trace ++ [OsCall.recv (ch_readahead_left r) x.n] })) := by
  refine ⟨fun hleft => by simp [sock_read, hleft], ?_⟩
  intro x q hleft hsock hq hn
  simp [sock_read, hleft, hsock, hq, sock_read_again, hn]

/-- C4 (amended) at two channels: the full channel (three bytes unread, none
free) returns 3 and the offered `recv` answer is not consumed; the half-full
channel (four unread, four free) calls `recv`. -/
theorem C4_sock_read_gated_on_free_capacity_witness :
    ch_readahead_left full_channel = 0 ∧
    sock_read full_channel ErrorState.init (script [] [recv_ok [9]])
      = some (3, full_channel, ErrorState.init, script [] [recv_ok [9]]) ∧
    sock_read half_full_channel ErrorState.init (script [] [recv_ok [9, 9]])
      = some (2, { half_full_channel with pos := 6, buf := [1, 2, 3, 4, 9, 9] },
          ErrorState.init, ⟨[], [], [OsCall.recv 4 2]⟩) :=
  ⟨by decide,
   (C4_sock_read_gated_on_free_capacity full_channel ErrorState.init
      (script [] [recv_ok [9]])).1 (by decide),
   (C4_sock_read_gated_on_free_capacity half_full_channel ErrorState.init
      (script [] [recv_ok [9, 9]])).2 (recv_ok [9, 9]) [] (by decide) (by decide) rfl (by decide)⟩

/-! ### Packet header -/

theorem to_int_small (x : Nat) (h : x < 2 ^ 31) : to_int x = (x : Int) := by
  unfold to_int
  have h1 : x % 2 ^ 32 = x := Nat.mod_eq_of_lt (by omega)
  rw [h1, if_pos h]

theorem sock_read_again_cursors (r : ch_readahead_t) (left : Nat) (e : ErrorState) :
    ∀ (q : List RecvResult) (tr : List OsCall) n r1 e1 q1 tr1,
      sock_read_again r left e q tr = some (n, r1, e1, q1, tr1) →
      r1.pos_read = r.pos_read ∧ (n ≤ 0 → r1.pos = r.pos) := by
  intro q
  induction q with
  | nil => intro tr n r1 e1 q1 tr1 h; simp [sock_read_again] at h
  | cons x q ih =>
    intro tr n r1 e1 q1 tr1 h
    simp only [sock_read_again] at h
    split at h
    · simp only [Option.some.injEq, Prod.mk.injEq] at h
      obtain ⟨hn, hr, -⟩ := h
      subst hr
      simp only [ch_readahead_pos_advance, store_at_pos, true_and]
      intro h0
      omega
    · split at h
      all_goals (try split at h)
      all_goals (try split at h)
      all_goals first
        | exact ih _ _ _ _ _ _ h
        | (simp only [Option.some.injEq, Prod.mk.injEq] at h
           obtain ⟨-, hr, -⟩ := h
           subst hr
           exact ⟨rfl, fun _ => rfl⟩)

theorem sock_read_cursors (r : ch_readahead_t) (e : ErrorState) (w : World) n r1 e1 w1
    (h : sock_read r e w = some (n, r1, e1, w1)) :
    r1.pos_read = r.pos_read ∧ (n ≤ 0 → r1.pos = r.pos) := by
  unfold sock_read at h
  simp only at h
  split at h
  · simp only [Option.some.injEq, Prod.mk.injEq] at h
    obtain ⟨-, hr, -⟩ := h
    subst hr; exact ⟨rfl, fun _ => rfl⟩
  · split at h
    · simp only [Option.some.injEq, Prod.mk.injEq] at h
      obtain ⟨-, hr, -⟩ := h
      subst hr; exact ⟨rfl, fun _ => rfl⟩
    · split at h
      · simp at h
      · rename_i n' r' e' q' tr' heq
        simp only [Option.some.injEq, Prod.mk.injEq] at h
        obtain ⟨hn, hr, -, hw⟩ := h
        subst hr hn
        exact sock_read_again_cursors r _ e _ _ _ _ _ _ _ heq

theorem read_varuint_binary_some (d : Defs) (r : ch_readahead_t) (e : ErrorState) (v k : Nat)
    (h : decode_varuint (unread_bytes r) = some (v, k)) :
    read_varuint_binary d r e = (v, ch_readahead_pos_read_advance r k, e) := by
  simp [read_varuint_binary, h]

theorem read_varuint_binary_none (d : Defs) (r : ch_readahead_t) (e : ErrorState)
    (h : decode_varuint (unread_bytes r) = none) :
    read_varuint_binary d r e
      = (d.varuint_fail, ch_readahead_pos_read_advance r (ch_readahead_unread r),
          ch_error e "protocol error: truncated varuint") := by
  simp [read_varuint_binary, h]

/-- What `ch_binary_read_header_tag` returns, in terms of the varuint that stands
at the read cursor. -/
theorem ch_binary_read_header_tag_spec (d : Defs) (hmax : d.CH_MaxPacketType ≤ 2 ^ 31)
    (s : State) :
    ((ch_binary_read_header_tag d s).1 = -1 ∨
      (0 ≤ (ch_binary_read_header_tag d s).1 ∧
        (ch_binary_read_header_tag d s).1 < (d.CH_MaxPacketType : Int))) ∧
    (ch_binary_read_header_tag d s).2.conn.in_.buf = s.conn.in_.buf ∧
    (ch_binary_read_header_tag d s).2.conn.in_.pos = s.conn.in_.pos ∧
    (ch_binary_read_header_tag d s).2.world = s.world ∧
    (∀ v k, decode_varuint (unread_bytes s.conn.in_) = some (v, k) →
      (d.CH_MaxPacketType ≤ v →
        (ch_binary_read_header_tag d s).1 = -1 ∧
        (ch_binary_read_header_tag d s).2.err
          = ch_error s.err "imcompatible server, invalid packet type" ∧
        (ch_binary_read_header_tag d s).2.conn.in_.pos_read = s.conn.in_.pos_read + k) ∧
      (v < d.CH_MaxPacketType →
        (ch_binary_read_header_tag d s).1 = (v : Int) ∧
        (ch_binary_read_header_tag d s).2.err = s.err ∧
        (ch_binary_read_header_tag d s).2.conn.in_.pos_read = s.conn.in_.pos_read + k)) := by
  by_cases h0 : ch_readahead_unread s.conn.in_ = 0
  · have hE : ch_binary_read_header_tag d s
        = (-1, { s with err := ch_error s.err "server communication error" }) := by
      simp [ch_binary_read_header_tag, h0]
    rw [hE]
    refine ⟨Or.inl rfl, rfl, rfl, rfl, ?_⟩
    intro v k hdec
    have h1 := unread_bytes_length s.conn.in_
    have h2 := (decode_varuint_consumed _ _ _ hdec)
    omega
  · cases hdec0 : decode_varuint (unread_bytes s.conn.in_) with
    | none =>
      have hrv := read_varuint_binary_none d s.conn.in_ s.err hdec0
      by_cases hge : d.CH_MaxPacketType ≤ d.varuint_fail
      · have hE : ch_binary_read_header_tag d s
            = (-1, { s with
                conn := { s.conn with
                  in_ := ch_readahead_pos_read_advance s.conn.in_ (ch_readahead_unread s.conn.in_) },
                err := ch_error (ch_error s.err "protocol error: truncated varuint")
                  "imcompatible server, invalid packet type" }) := by
          simp [ch_binary_read_header_tag, h0, hrv, hge]
        rw [hE]
        refine ⟨Or.inl rfl, rfl, rfl, rfl, ?_⟩
        intro v k hdec; simp at hdec
      · have hE : ch_binary_read_header_tag d s
            = (to_int d.varuint_fail, { s with
                conn := { s.conn with
                  in_ := ch_readahead_pos_read_advance s.conn.in_ (ch_readahead_unread s.conn.in_) },
                err := ch_error s.err "protocol error: truncated varuint" }) := by
          simp [ch_binary_read_header_tag, h0, hrv, hge]
        rw [hE]
        have hti := to_int_small d.varuint_fail (by omega)
        refine ⟨Or.inr ?_, rfl, rfl, rfl, ?_⟩
        · simp only [hti]; omega
        · intro v k hdec; simp at hdec
    | some vk =>
      obtain ⟨v0, k0⟩ := vk
      have hrv := read_varuint_binary_some d s.conn.in_ s.err v0 k0 hdec0
      by_cases hge : d.CH_MaxPacketType ≤ v0
      · have hE : ch_binary_read_header_tag d s
            = (-1, { s with
                conn := { s.conn with in_ := ch_readahead_pos_read_advance s.conn.in_ k0 },
                err := ch_error s.err "imcompatible server, invalid packet type" }) := by
          simp [ch_binary_read_header_tag, h0, hrv, hge]
        rw [hE]
        refine ⟨Or.inl rfl, rfl, rfl, rfl, ?_⟩
        intro v k hdec
        simp only [Option.some.injEq, Prod.mk.injEq] at hdec
        obtain ⟨hv, hk⟩ := hdec
        subst hv hk
        refine ⟨fun _ => ⟨rfl, rfl, rfl⟩, fun hlt => ?_⟩
        omega
      · have hE : ch_binary_read_header_tag d s
            = (to_int v0, { s with
                conn := { s.conn with in_ := ch_readahead_pos_read_advance s.conn.in_ k0 },
                err := s.err }) := by
          simp [ch_binary_read_header_tag, h0, hrv, hge]
        rw [hE]
        have hti := to_int_small v0 (by omega)
        refine ⟨Or.inr ?_, rfl, rfl, rfl, ?_⟩
        · simp only [hti]; omega
        · intro v k hdec
          simp only [Option.some.injEq, Prod.mk.injEq] at hdec
          obtain ⟨hv, hk⟩ := hdec
          subst hv hk
          refine ⟨fun hge2 => ?_, fun _ => ⟨hti, rfl, rfl⟩⟩
          omega


/-- Every return of `ch_binary_read_header`: range of the result, the tag that
stood at the read cursor, and what `get_hello` and `ch_ping` do on -1. -/
theorem ch_binary_read_header_result (d : Defs) (hmax : d.CH_MaxPacketType ≤ 2 ^ 31)
    (s s1 : State) (ret : Int) (h : ch_binary_read_header d s = some (ret, s1)) :
    (ret = -1 ∨ (0 ≤ ret ∧ ret < (d.CH_MaxPacketType : Int))) ∧
    (∀ v k, decode_varuint (tag_bytes s s1) = some (v, k) →
      (d.CH_MaxPacketType ≤ v →
        ret = -1 ∧ ch_binary_errno s1.err = 1 ∧
        ch_binary_last_error s1.err = some "imcompatible server, invalid packet type" ∧
        s1.conn.in_.pos_read = (ch_readahead_reuse s.conn.in_).pos_read + k) ∧
      (v < d.CH_MaxPacketType →
        ret = (v : Int) ∧
        s1.conn.in_.pos_read = (ch_readahead_reuse s.conn.in_).pos_read + k)) ∧
    (ret = -1 →
      (∀ s0 : State, s = { s0 with err := ch_reset_error s0.err } →
        get_hello d s0 = some (false, s1)) ∧
      (∀ fuel, ch_ping_again d (fuel + 1) s = some (false, s1))) := by
  have key : (ret = -1 ∨ (0 ≤ ret ∧ ret < (d.CH_MaxPacketType : Int))) ∧
      (∀ v k, decode_varuint (tag_bytes s s1) = some (v, k) →
        (d.CH_MaxPacketType ≤ v →
          ret = -1 ∧ ch_binary_errno s1.err = 1 ∧
          ch_binary_last_error s1.err = some "imcompatible server, invalid packet type" ∧
          s1.conn.in_.pos_read = (ch_readahead_reuse s.conn.in_).pos_read + k) ∧
        (v < d.CH_MaxPacketType →
          ret = (v : Int) ∧
          s1.conn.in_.pos_read = (ch_readahead_reuse s.conn.in_).pos_read + k)) := by
    have h' := h
    unfold ch_binary_read_header at h'
    simp only at h'
    split at h'
    · rename_i hun
      split at h'
      · simp at h'
      · rename_i n in1 e1 w1 heq
        obtain ⟨hpr, hpos⟩ := sock_read_cursors _ _ _ _ _ _ _ heq
        split at h'
        · rename_i hn
          simp only [Option.some.injEq, Prod.mk.injEq] at h'
          obtain ⟨hret, hs⟩ := h'
          subst hs
          refine ⟨Or.inl hret.symm, ?_⟩
          intro v k hdec
          have hc := decode_varuint_consumed _ _ _ hdec
          have hp := hpos hn
          simp only [tag_bytes, List.length_drop, List.length_take] at hc
          simp only [ch_readahead_unread] at hun
          omega
        · simp only [Option.some.injEq] at h'
          have hsp := ch_binary_read_header_tag_spec d hmax
            { conn := { s.conn with in_ := in1 }, err := e1, world := w1 }
          rw [h'] at hsp
          obtain ⟨hr, hbuf, hp, -, hv⟩ := hsp
          refine ⟨hr, ?_⟩
          intro v k hdec
          simp only at hbuf hp
          have hdec' : decode_varuint (unread_bytes in1) = some (v, k) := by
            simp only [tag_bytes, hbuf, hp, ← hpr] at hdec
            exact hdec
          obtain ⟨hA, hB⟩ := hv v k hdec'
          refine ⟨fun hge => ?_, fun hlt => ?_⟩
          · obtain ⟨a, b, c⟩ := hA hge
            simp only at c
            refine ⟨a, ?_, ?_, by rw [c, hpr]⟩
            · rw [b]; rfl
            · rw [b]; rfl
          · obtain ⟨a, -, c⟩ := hB hlt
            simp only at c
            exact ⟨a, by rw [c, hpr]⟩
    · simp only [Option.some.injEq] at h'
      have hsp := ch_binary_read_header_tag_spec d hmax
        { s with conn := { s.conn with in_ := ch_readahead_reuse s.conn.in_ } }
      rw [h'] at hsp
      obtain ⟨hr, hbuf, hp, -, hv⟩ := hsp
      refine ⟨hr, ?_⟩
      intro v k hdec
      simp only at hbuf hp
      have hdec' : decode_varuint (unread_bytes (ch_readahead_reuse s.conn.in_))
          = some (v, k) := by
        simp only [tag_bytes, hbuf, hp] at hdec
        exact hdec
      obtain ⟨hA, hB⟩ := hv v k hdec'
      refine ⟨fun hge => ?_, fun hlt => ?_⟩
      · obtain ⟨a, b, c⟩ := hA hge
        simp only at c
        refine ⟨a, ?_, ?_, c⟩
        · rw [b]; rfl
        · rw [b]; rfl
      · obtain ⟨a, -, c⟩ := hB hlt
        exact ⟨a, c⟩
  refine ⟨key.1, key.2, ?_⟩
  intro hm1
  subst hm1
  refine ⟨?_, ?_⟩
  · intro s0 hs0
    subst hs0
    simp [get_hello, h]
  · intro fuel
    have h1 : ((-1 : Int) = (d.CH_Progress : Int)) = False := by
      simp only [eq_iff_iff, iff_false]; omega
    have h2 : ((-1 : Int) = (d.CH_Pong : Int)) = False := by
      simp only [eq_iff_iff, iff_false]; omega
    simp only [ch_ping_again, h, h1, h2, if_false]


/-! ### Handshake -/

theorem read_varuint_binary_cases (d : Defs) (c : ch_readahead_t) (e : ErrorState) :
    (∃ v c1, reads_varuint c v c1 ∧ read_varuint_binary d c e = (v, c1, e)) ∨
    (∃ v c1 msg, read_varuint_binary d c e = (v, c1, ch_error e msg)) := by
  cases hdec : decode_varuint (unread_bytes c) with
  | none => exact Or.inr ⟨_, _, _, read_varuint_binary_none d c e hdec⟩
  | some vk =>
    obtain ⟨v, k⟩ := vk
    exact Or.inl ⟨v, _, ⟨k, hdec, rfl⟩, read_varuint_binary_some d c e v k hdec⟩

theorem read_string_binary_cases (c : ch_readahead_t) (e : ErrorState) :
    (∃ str c1, reads_string c str c1 ∧ read_string_binary c e = (some str, c1, e)) ∨
    (∃ c1 msg, read_string_binary c e = (none, c1, ch_error e msg)) := by
  cases hdec : decode_varuint (unread_bytes c) with
  | none => exact Or.inr ⟨_, _, by simp [read_string_binary, hdec]; exact ⟨rfl, rfl⟩⟩
  | some vk =>
    obtain ⟨len, k⟩ := vk
    by_cases hlen : len ≤ ch_readahead_unread (ch_readahead_pos_read_advance c k)
    · exact Or.inl ⟨_, _, ⟨len, k, hdec, hlen, rfl, rfl⟩, by simp [read_string_binary, hdec, hlen]⟩
    · exact Or.inr ⟨_, _, by simp [read_string_binary, hdec, hlen]; exact ⟨rfl, rfl⟩⟩

theorem get_hello_finish_true (s s1 : State) (h : get_hello_finish s = (true, s1)) :
    s1 = s ∧ s.err.in_error_state = false := by
  unfold get_hello_finish ch_binary_errno at h
  cases hE : s.err.in_error_state <;> simp [hE] at h
  exact ⟨h.symm, rfl⟩

theorem get_hello_version_patch_true (d : Defs) (s s1 : State)
    (h : get_hello_version_patch d s = (true, s1)) :
    s.err.in_error_state = false ∧
    (d.DBMS_MIN_REVISION_WITH_VERSION_PATCH ≤ s.conn.server_revision →
      ∃ p c1, reads_varuint s.conn.in_ p c1 ∧
        s1 = { s with conn := { s.conn with server_version_patch := p, in_ := c1 } }) ∧
    (¬ d.DBMS_MIN_REVISION_WITH_VERSION_PATCH ≤ s.conn.server_revision →
      s1 = { s with conn := { s.conn with server_version_patch := s.conn.server_revision } }) := by
  unfold get_hello_version_patch at h
  by_cases hr : d.DBMS_MIN_REVISION_WITH_VERSION_PATCH ≤ s.conn.server_revision
  · rw [if_pos hr] at h
    rcases read_varuint_binary_cases d s.conn.in_ s.err with ⟨v, c1, hrd, heq⟩ | ⟨v, c1, msg, heq⟩
    · rw [heq] at h
      obtain ⟨h1, h2⟩ := get_hello_finish_true _ _ h
      exact ⟨h2, fun _ => ⟨v, c1, hrd, h1⟩, fun hn => absurd hr hn⟩
    · rw [heq] at h
      obtain ⟨-, h2⟩ := get_hello_finish_true _ _ h
      simp [ch_error] at h2
  · rw [if_neg hr] at h
    obtain ⟨h1, h2⟩ := get_hello_finish_true _ _ h
    exact ⟨h2, fun hp => absurd hp hr, fun _ => h1⟩

theorem get_hello_display_name_true (d : Defs) (s s1 : State)
    (h : get_hello_display_name d s = (true, s1)) :
    s.err.in_error_state = false ∧
    ∃ sm, get_hello_version_patch d sm = (true, s1) ∧
      (d.DBMS_MIN_REVISION_WITH_SERVER_DISPLAY_NAME ≤ s.conn.server_revision →
        ∃ dn c1, reads_string s.conn.in_ dn c1 ∧
          sm = { s with conn := { s.conn with server_display_name := some dn, in_ := c1 } }) ∧
      (¬ d.DBMS_MIN_REVISION_WITH_SERVER_DISPLAY_NAME ≤ s.conn.server_revision → sm = s) := by
  unfold get_hello_display_name at h
  by_cases hr : d.DBMS_MIN_REVISION_WITH_SERVER_DISPLAY_NAME ≤ s.conn.server_revision
  · rw [if_pos hr] at h
    rcases read_string_binary_cases s.conn.in_ s.err with ⟨v, c1, hrd, heq⟩ | ⟨c1, msg, heq⟩
    · rw [heq] at h
      simp only at h
      have h2 := (get_hello_version_patch_true d _ _ h).1
      exact ⟨h2, _, h, fun _ => ⟨v, c1, hrd, rfl⟩, fun hn => absurd hr hn⟩
    · rw [heq] at h
      simp at h
  · rw [if_neg hr] at h
    have h2 := (get_hello_version_patch_true d _ _ h).1
    exact ⟨h2, s, h, fun hp => absurd hp hr, fun _ => rfl⟩

theorem get_hello_timezone_true (d : Defs) (s s1 : State)
    (h : get_hello_timezone d s = (true, s1)) :
    s.err.in_error_state = false ∧
    ∃ sm, get_hello_display_name d sm = (true, s1) ∧
      (d.DBMS_MIN_REVISION_WITH_SERVER_TIMEZONE ≤ s.conn.server_revision →
        ∃ tz c1, reads_string s.conn.in_ tz c1 ∧
          sm = { s with conn := { s.conn with server_timezone := some tz, in_ := c1 } }) ∧
      (¬ d.DBMS_MIN_REVISION_WITH_SERVER_TIMEZONE ≤ s.conn.server_revision → sm = s) := by
  unfold get_hello_timezone at h
  by_cases hr : d.DBMS_MIN_REVISION_WITH_SERVER_TIMEZONE ≤ s.conn.server_revision
  · rw [if_pos hr] at h
    rcases read_string_binary_cases s.conn.in_ s.err with ⟨v, c1, hrd, heq⟩ | ⟨c1, msg, heq⟩
    · rw [heq] at h
      simp only at h
      have h2 := (get_hello_display_name_true d _ _ h).1
      exact ⟨h2, _, h, fun _ => ⟨v, c1, hrd, rfl⟩, fun hn => absurd hr hn⟩
    · rw [heq] at h
      simp at h
  · rw [if_neg hr] at h
    have h2 := (get_hello_display_name_true d _ _ h).1
    exact ⟨h2, s, h, fun hp => absurd hp hr, fun _ => rfl⟩

theorem get_hello_payload_true (d : Defs) (s s1 : State)
    (h : get_hello_payload d s = (true, s1)) :
    ∃ name major minor r c1 c2 c3 c4,
      reads_string s.conn.in_ name c1 ∧ reads_varuint c1 major c2 ∧
      reads_varuint c2 minor c3 ∧ reads_varuint c3 r c4 ∧
      get_hello_timezone d
        { s with conn := { s.conn with server_name := some name, server_version_major := major,
                                       server_version_minor := minor, server_revision := r,
                                       in_ := c4 } } = (true, s1) := by
  unfold get_hello_payload at h
  rcases read_string_binary_cases s.conn.in_ s.err with ⟨name, c1, hrd1, heq1⟩ | ⟨c1, msg, heq1⟩
  · rw [heq1] at h
    simp only at h
    rcases read_varuint_binary_cases d c1 s.err with ⟨major, c2, hrd2, heq2⟩ | ⟨v, c2, msg, heq2⟩
    · rw [heq2] at h
      simp only at h
      rcases read_varuint_binary_cases d c2 s.err with ⟨minor, c3, hrd3, heq3⟩ | ⟨v, c3, msg, heq3⟩
      · rw [heq3] at h
        simp only at h
        rcases read_varuint_binary_cases d c3 s.err with ⟨r, c4, hrd4, heq4⟩ | ⟨v, c4, msg, heq4⟩
        · rw [heq4] at h
          simp only at h
          exact ⟨name, major, minor, r, c1, c2, c3, c4, hrd1, hrd2, hrd3, hrd4, h⟩
        · rw [heq4] at h
          simp only at h
          have := (get_hello_timezone_true d _ _ h).1
          simp [ch_error] at this
      · rw [heq3] at h
        simp only at h
        rcases read_varuint_binary_cases d c3 (ch_error s.err msg) with
          ⟨r, c4, hrd4, heq4⟩ | ⟨v, c4, msg4, heq4⟩
        all_goals
          rw [heq4] at h
          simp only at h
          have := (get_hello_timezone_true d _ _ h).1
          simp [ch_error] at this
    · rw [heq2] at h
      simp only at h
      rcases read_varuint_binary_cases d c2 (ch_error s.err msg) with
        ⟨minor, c3, hrd3, heq3⟩ | ⟨v3, c3, msg3, heq3⟩
      all_goals
        rw [heq3] at h
        simp only at h
      · rcases read_varuint_binary_cases d c3 (ch_error s.err msg) with
          ⟨r, c4, hrd4, heq4⟩ | ⟨v, c4, msg4, heq4⟩
        all_goals
          rw [heq4] at h
          simp only at h
          have := (get_hello_timezone_true d _ _ h).1
          simp [ch_error] at this
      · rcases read_varuint_binary_cases d c3 (ch_error (ch_error s.err msg) msg3) with
          ⟨r, c4, hrd4, heq4⟩ | ⟨v, c4, msg4, heq4⟩
        all_goals
          rw [heq4] at h
          simp only at h
          have := (get_hello_timezone_true d _ _ h).1
          simp [ch_error] at this
  · rw [heq1] at h
    simp at h


theorem ch_binary_read_header_tag_conn (d : Defs) (s : State) :
    (ch_binary_read_header_tag d s).2.conn
      = { s.conn with in_ := (ch_binary_read_header_tag d s).2.conn.in_ } := by
  unfold ch_binary_read_header_tag
  split
  · rfl
  · split; split <;> rfl

theorem ch_binary_read_header_conn (d : Defs) (s s0 : State) (ret : Int)
    (h : ch_binary_read_header d s = some (ret, s0)) :
    s0.conn = { s.conn with in_ := s0.conn.in_ } := by
  unfold ch_binary_read_header at h
  simp only at h
  split at h
  · split at h
    · simp at h
    · split at h
      · simp only [Option.some.injEq, Prod.mk.injEq] at h
        obtain ⟨-, hs⟩ := h
        subst hs
        rfl
      · simp only [Option.some.injEq] at h
        have := ch_binary_read_header_tag_conn d
          { conn := { s.conn with in_ := ‹ch_readahead_t› }, err := ‹ErrorState›, world := ‹World› }
        rw [h] at this
        exact this
  · simp only [Option.some.injEq] at h
    have := ch_binary_read_header_tag_conn d
      { s with conn := { s.conn with in_ := ch_readahead_reuse s.conn.in_ } }
    rw [h] at this
    exact this

/-- C8: on every run where `get_hello` returns true, the header read returned
the Hello tag, and from the channel as the header read left it the server name,
version major, version minor and revision `r` are read in this order and stored.
The timezone string is read next exactly when `r` is at or above
`DBMS_MIN_REVISION_WITH_SERVER_TIMEZONE`, the display name then exactly when `r`
is at or above `DBMS_MIN_REVISION_WITH_SERVER_DISPLAY_NAME`, the version patch
last exactly when `r` is at or above `DBMS_MIN_REVISION_WITH_VERSION_PATCH`.
Below its threshold a field consumes nothing (the channel is the same before and
after), timezone and display name keep the value the connection had before the
call, and `server_version_patch` equals `r`. -/
theorem C8_hello_field_gating (d : Defs) (s s1 : State)
    (h : get_hello d s = some (true, s1)) :
    ∃ (s0 : State) (name : List Nat) (major minor r : Nat)
      (c1 c2 c3 c4 c5 c6 : ch_readahead_t),
      ch_binary_read_header d { s with err := ch_reset_error s.err }
        = some ((d.CH_Hello : Int), s0) ∧
      reads_string s0.conn.in_ name c1 ∧ reads_varuint c1 major c2 ∧
      reads_varuint c2 minor c3 ∧ reads_varuint c3 r c4 ∧
      s1.conn.server_name = some name ∧ s1.conn.server_version_major = major ∧
      s1.conn.server_version_minor = minor ∧ s1.conn.server_revision = r ∧
      (d.DBMS_MIN_REVISION_WITH_SERVER_TIMEZONE ≤ r →
        ∃ tz, reads_string c4 tz c5 ∧ s1.conn.server_timezone = some tz) ∧
      (r < d.DBMS_MIN_REVISION_WITH_SERVER_TIMEZONE →
        c5 = c4 ∧ s1.conn.server_timezone = s.conn.server_timezone) ∧
      (d.DBMS_MIN_REVISION_WITH_SERVER_DISPLAY_NAME ≤ r →
        ∃ dn, reads_string c5 dn c6 ∧ s1.conn.server_display_name = some dn) ∧
      (r < d.DBMS_MIN_REVISION_WITH_SERVER_DISPLAY_NAME →
        c6 = c5 ∧ s1.conn.server_display_name = s.conn.server_display_name) ∧
      (d.DBMS_MIN_REVISION_WITH_VERSION_PATCH ≤ r →
        ∃ p, reads_varuint c6 p s1.conn.in_ ∧ s1.conn.server_version_patch = p) ∧
      (r < d.DBMS_MIN_REVISION_WITH_VERSION_PATCH →
        s1.conn.in_ = c6 ∧ s1.conn.server_version_patch = r) := by
  unfold get_hello at h
  split at h
  · simp at h
  · rename_i pt s0 hhdr
    have hconn := ch_binary_read_header_conn d _ s0 pt hhdr
    simp only at hconn
    split at h
    · simp at h
    · split at h
      · rename_i hpt
        subst hpt
        simp only [Option.some.injEq] at h
        obtain ⟨name, major, minor, r, c1, c2, c3, c4, hr1, hr2, hr3, hr4, htz⟩ :=
          get_hello_payload_true d s0 s1 h
        obtain ⟨-, s5, hdn, htzY, htzN⟩ := get_hello_timezone_true d _ _ htz
        obtain ⟨-, s6, hvp, hdnY, hdnN⟩ := get_hello_display_name_true d _ _ hdn
        obtain ⟨-, hvpY, hvpN⟩ := get_hello_version_patch_true d _ _ hvp
        simp only at htzY htzN
        have hs5 : s5.conn.server_name = some name ∧ s5.conn.server_version_major = major ∧
            s5.conn.server_version_minor = minor ∧ s5.conn.server_revision = r ∧
            s5.conn.server_display_name = s.conn.server_display_name := by
          by_cases hc : d.DBMS_MIN_REVISION_WITH_SERVER_TIMEZONE ≤ r
          · obtain ⟨tz, c, -, e⟩ := htzY hc
            rw [e, hconn]; exact ⟨rfl, rfl, rfl, rfl, rfl⟩
          · rw [htzN hc, hconn]; exact ⟨rfl, rfl, rfl, rfl, rfl⟩
        obtain ⟨n5, ma5, mi5, r5, dn5⟩ := hs5
        rw [r5] at hdnY hdnN
        have hs6 : s6.conn.server_name = some name ∧ s6.conn.server_version_major = major ∧
            s6.conn.server_version_minor = minor ∧ s6.conn.server_revision = r ∧
            s6.conn.server_timezone = s5.conn.server_timezone := by
          by_cases hc : d.DBMS_MIN_REVISION_WITH_SERVER_DISPLAY_NAME ≤ r
          · obtain ⟨dn, c, -, e⟩ := hdnY hc
            rw [e]; exact ⟨n5, ma5, mi5, r5, rfl⟩
          · rw [hdnN hc]; exact ⟨n5, ma5, mi5, r5, rfl⟩
        obtain ⟨n6, ma6, mi6, r6, tz6⟩ := hs6
        rw [r6] at hvpY hvpN
        have hs1 : s1.conn.server_name = some name ∧ s1.conn.server_version_major = major ∧
            s1.conn.server_version_minor = minor ∧ s1.conn.server_revision = r ∧
            s1.conn.server_timezone = s5.conn.server_timezone ∧
            s1.conn.server_display_name = s6.conn.server_display_name := by
          by_cases hc : d.DBMS_MIN_REVISION_WITH_VERSION_PATCH ≤ r
          · obtain ⟨p, c, -, e⟩ := hvpY hc
            rw [e]; exact ⟨n6, ma6, mi6, r6, tz6, rfl⟩
          · rw [hvpN hc]; exact ⟨n6, ma6, mi6, r6, tz6, rfl⟩
        obtain ⟨n1, ma1, mi1, r1, tz1, dn1⟩ := hs1
        refine ⟨s0, name, major, minor, r, c1, c2, c3, c4, s5.conn.in_, s6.conn.in_,
          hhdr, hr1, hr2, hr3, hr4, n1, ma1, mi1, r1, ?_, ?_, ?_, ?_, ?_, ?_⟩
        · intro hc
          obtain ⟨tz, c, hrd, e⟩ := htzY hc
          refine ⟨tz, ?_, ?_⟩
          · rw [e]; exact hrd
          · rw [tz1, e]
        · intro hc
          have e := htzN (by omega)
          refine ⟨by rw [e], ?_⟩
          rw [tz1, e, hconn]
        · intro hc
          obtain ⟨dn, c, hrd, e⟩ := hdnY hc
          refine ⟨dn, ?_, ?_⟩
          · rw [e]; exact hrd
          · rw [dn1, e]
        · intro hc
          have e := hdnN (by omega)
          refine ⟨by rw [e], ?_⟩
          rw [dn1, e, dn5]
        · intro hc
          obtain ⟨p, c, hrd, e⟩ := hvpY hc
          refine ⟨p, ?_, ?_⟩
          · rw [e]; exact hrd
          · rw [e]
        · intro hc
          have e := hvpN (by omega)
          refine ⟨by rw [e], ?_⟩
          rw [e]
      · simp at h


/-- C8 at a concrete run: for the Hello of revision 54100 `get_hello` returns
true, and the gating holds between the states before and after. -/
theorem C8_hello_field_gating_witness :
    get_hello clickhouse_defs hello_54100_state = some (true, hello_54100_after) ∧
    ∃ (s0 : State) (name : List Nat) (major minor r : Nat)
      (c1 c2 c3 c4 c5 c6 : ch_readahead_t),
      ch_binary_read_header clickhouse_defs
          { hello_54100_state with err := ch_reset_error hello_54100_state.err }
        = some ((clickhouse_defs.CH_Hello : Int), s0) ∧
      reads_string s0.conn.in_ name c1 ∧ reads_varuint c1 major c2 ∧
      reads_varuint c2 minor c3 ∧ reads_varuint c3 r c4 ∧
      hello_54100_after.conn.server_name = some name ∧
      hello_54100_after.conn.server_version_major = major ∧
      hello_54100_after.conn.server_version_minor = minor ∧
      hello_54100_after.conn.server_revision = r ∧
      (clickhouse_defs.DBMS_MIN_REVISION_WITH_SERVER_TIMEZONE ≤ r →
        ∃ tz, reads_string c4 tz c5 ∧ hello_54100_after.conn.server_timezone = some tz) ∧
      (r < clickhouse_defs.DBMS_MIN_REVISION_WITH_SERVER_TIMEZONE →
        c5 = c4 ∧
        hello_54100_after.conn.server_timezone = hello_54100_state.conn.server_timezone) ∧
      (clickhouse_defs.DBMS_MIN_REVISION_WITH_SERVER_DISPLAY_NAME ≤ r →
        ∃ dn, reads_string c5 dn c6 ∧ hello_54100_after.conn.server_display_name = some dn) ∧
      (r < clickhouse_defs.DBMS_MIN_REVISION_WITH_SERVER_DISPLAY_NAME →
        c6 = c5 ∧
        hello_54100_after.conn.server_display_name
          = hello_54100_state.conn.server_display_name) ∧
      (clickhouse_defs.DBMS_MIN_REVISION_WITH_VERSION_PATCH ≤ r →
        ∃ p, reads_varuint c6 p hello_54100_after.conn.in_ ∧
          hello_54100_after.conn.server_version_patch = p) ∧
      (r < clickhouse_defs.DBMS_MIN_REVISION_WITH_VERSION_PATCH →
        hello_54100_after.conn.in_ = c6 ∧ hello_54100_after.conn.server_version_patch = r) :=
  ⟨rfl, C8_hello_field_gating clickhouse_defs hello_54100_state hello_54100_after rfl⟩

theorem ch_binary_read_header_tag_decoded (d : Defs) (hmax : d.CH_MaxPacketType ≤ 2 ^ 31)
    (s : State) (v k : Nat) (hdec : decode_varuint (unread_bytes s.conn.in_) = some (v, k)) :
    ch_binary_read_header_tag d s
      = (if d.CH_MaxPacketType ≤ v then -1 else (v : Int),
          { s with
            conn := { s.conn with in_ := ch_readahead_pos_read_advance s.conn.in_ k },
            err := if d.CH_MaxPacketType ≤ v then
                ch_error s.err "imcompatible server, invalid packet type"
              else s.err }) := by
  have h0 : ch_readahead_unread s.conn.in_ ≠ 0 := by
    have h1 := unread_bytes_length s.conn.in_
    have h2 := decode_varuint_consumed _ _ _ hdec
    omega
  have hrv := read_varuint_binary_some d s.conn.in_ s.err v k hdec
  by_cases hge : d.CH_MaxPacketType ≤ v
  · simp [ch_binary_read_header_tag, h0, hrv, hge]
  · have hti := to_int_small v (by omega)
    simp [ch_binary_read_header_tag, h0, hrv, hge, hti]

theorem ch_binary_read_header_pending (d : Defs) (hmax : d.CH_MaxPacketType ≤ 2 ^ 31)
    (s : State) (v k : Nat) (hdec : decode_varuint (unread_bytes s.conn.in_) = some (v, k)) :
    ch_binary_read_header d s
      = some (if d.CH_MaxPacketType ≤ v then -1 else (v : Int),
          { s with
            conn := { s.conn with in_ := ch_readahead_pos_read_advance s.conn.in_ k },
            err := if d.CH_MaxPacketType ≤ v then
                ch_error s.err "imcompatible server, invalid packet type"
              else s.err }) := by
  have h0 : ch_readahead_unread s.conn.in_ ≠ 0 := by
    have h1 := unread_bytes_length s.conn.in_
    have h2 := decode_varuint_consumed _ _ _ hdec
    omega
  have hre : ch_readahead_reuse s.conn.in_ = s.conn.in_ := by
    simp [ch_readahead_reuse, h0]
  have hs : ({ s with conn := { s.conn with in_ := s.conn.in_ } } : State) = s := rfl
  unfold ch_binary_read_header
  simp only [hre, h0, if_false, hs]
  rw [ch_binary_read_header_tag_decoded d hmax s v k hdec]

theorem ch_binary_read_header_received (d : Defs) (hmax : d.CH_MaxPacketType ≤ 2 ^ 31)
    (s : State) (x : RecvResult) (q : List RecvResult) (v k : Nat)
    (hempty : ch_readahead_unread s.conn.in_ = 0) (hsize : s.conn.in_.size ≠ 0)
    (hsock : s.conn.in_.sock ≠ 0) (hq : s.world.recvq = x :: q)
    (hn : x.n = (x.data.length : Int)) (hdec : decode_varuint x.data = some (v, k)) :
    ch_binary_read_header d s
      = some (if d.CH_MaxPacketType ≤ v then -1 else (v : Int),
          { conn := { s.conn with
              in_ := ch_readahead_pos_read_advance
                (ch_readahead_pos_advance
                  (store_at_pos (ch_readahead_reuse s.conn.in_) x.data) x.data.length) k },
            err := if d.CH_MaxPacketType ≤ v then
                ch_error s.err "imcompatible server, invalid packet type"
              else s.err,
            world := { s.world with
              recvq := q,
              trace := s.world.trace ++ [OsCall.recv s.conn.in_.size x.n] } }) := by
  have hlen := (decode_varuint_consumed _ _ _ hdec)
  have hre : ch_readahead_reuse s.conn.in_ = { s.conn.in_ with pos := 0, pos_read := 0 } := by
    simp [ch_readahead_reuse, hempty]
  have hpos : 0 < x.n := by omega
  have htn : x.n.toNat = x.data.length := by omega
  have hsr : sock_read (ch_readahead_reuse s.conn.in_) s.err s.world
      = some (x.n,
          ch_readahead_pos_advance (store_at_pos (ch_readahead_reuse s.conn.in_) x.data)
            x.data.length,
          s.err,
          { s.world with recvq := q,
                         trace := s.world.trace ++ [OsCall.recv s.conn.in_.size x.n] }) := by
    have h0 : (0 : Int) ≤ x.n := by omega
    simp [sock_read, hre, ch_readahead_left, hsize, hsock, hq, sock_read_again, h0, htn]
  have hun : ch_readahead_unread (ch_readahead_reuse s.conn.in_) = 0 := by
    simp [hre, ch_readahead_unread]
  have hnle : ¬ x.n ≤ 0 := by omega
  have hbytes : unread_bytes
      (ch_readahead_pos_advance (store_at_pos (ch_readahead_reuse s.conn.in_) x.data)
        x.data.length) = x.data := by
    simp [hre, unread_bytes, ch_readahead_pos_advance, store_at_pos]
  unfold ch_binary_read_header
  simp only [hun, if_true, hsr, hnle, if_false]
  rw [ch_binary_read_header_tag_decoded d hmax _ v k (by rw [hbytes]; exact hdec)]


/-- C9: let the inbound stream start with a varuint that decodes to `v` over `k`
bytes, either pending in the channel or delivered by the next `recv` into the
empty channel. Then `ch_binary_read_header` returns: for
`v >= CH_MaxPacketType` it returns -1 with the error state set to
"imcompatible server, invalid packet type", otherwise it returns `v` itself; in
both cases the read cursor has moved by exactly the `k` bytes of the tag and
nothing else is consumed. Whenever the call returns, the result is -1 or lies
in `[0, CH_MaxPacketType)`, and on -1 `get_hello` returns false and the loop of
`ch_ping` returns false in the very state the header read left, so no payload
is read for an out-of-range tag. -/
theorem C9_tag_bound_rejection (d : Defs) (hmax : d.CH_MaxPacketType ≤ 2 ^ 31) (s : State) :
    (∀ v k, decode_varuint (unread_bytes s.conn.in_) = some (v, k) →
      ch_binary_read_header d s
        = some (if d.CH_MaxPacketType ≤ v then -1 else (v : Int),
            { s with
              conn := { s.conn with in_ := ch_readahead_pos_read_advance s.conn.in_ k },
              err := if d.CH_MaxPacketType ≤ v then
                  ch_error s.err "imcompatible server, invalid packet type"
                else s.err })) ∧
    (∀ (x : RecvResult) (q : List RecvResult) (v k : Nat),
      ch_readahead_unread s.conn.in_ = 0 → s.conn.in_.size ≠ 0 → s.conn.in_.sock ≠ 0 →
      s.world.recvq = x :: q → x.n = (x.data.length : Int) →
      decode_varuint x.data = some (v, k) →
      ch_binary_read_header d s
        = some (if d.CH_MaxPacketType ≤ v then -1 else (v : Int),
            { conn := { s.conn with
                in_ := ch_readahead_pos_read_advance
                  (ch_readahead_pos_advance
                    (store_at_pos (ch_readahead_reuse s.conn.in_) x.data) x.data.length) k },
              err := if d.CH_MaxPacketType ≤ v then
                  ch_error s.err "imcompatible server, invalid packet type"
                else s.err,
              world := { s.world with
                recvq := q,
                trace := s.world.trace ++ [OsCall.recv s.conn.in_.size x.n] } })) ∧
    (∀ (ret : Int) (s1 : State), ch_binary_read_header d s = some (ret, s1) →
      (ret = -1 ∨ (0 ≤ ret ∧ ret < (d.CH_MaxPacketType : Int))) ∧
      (∀ v k, decode_varuint (tag_bytes s s1) = some (v, k) →
        (d.CH_MaxPacketType ≤ v →
          ret = -1 ∧ ch_binary_errno s1.err = 1 ∧
          ch_binary_last_error s1.err = some "imcompatible server, invalid packet type" ∧
          s1.conn.in_.pos_read = (ch_readahead_reuse s.conn.in_).pos_read + k) ∧
        (v < d.CH_MaxPacketType →
          ret = (v : Int) ∧
          s1.conn.in_.pos_read = (ch_readahead_reuse s.conn.in_).pos_read + k)) ∧
      (ret = -1 →
        (∀ s0 : State, s = { s0 with err := ch_reset_error s0.err } →
          get_hello d s0 = some (false, s1)) ∧
        (∀ fuel, ch_ping_again d (fuel + 1) s = some (false, s1)))) :=
  ⟨fun v k hdec => ch_binary_read_header_pending d hmax s v k hdec,
   fun x q v k h1 h2 h3 h4 h5 h6 => ch_binary_read_header_received d hmax s x q v k h1 h2 h3 h4 h5 h6,
   fun ret s1 h => ch_binary_read_header_result d hmax s s1 ret h⟩

/-- C9 at a concrete run: into the empty channel the next `recv` delivers the
bytes 12, 7, the first being the tag 12 = `CH_MaxPacketType`. The header read
returns -1, the error state holds the protocol error, and the read cursor stands
after the one tag byte with the byte 7 unread. -/
theorem C9_tag_bound_rejection_witness :
    clickhouse_defs.CH_MaxPacketType ≤ 2 ^ 31 ∧
    decode_varuint [12, 7] = some (12, 1) ∧
    ch_binary_read_header clickhouse_defs tag_out_of_range_state
      = some (-1, tag_out_of_range_after) :=
  ⟨by decide, rfl,
   (C9_tag_bound_rejection clickhouse_defs (by decide) tag_out_of_range_state).2.1
      (recv_ok [12, 7]) [] 12 1 rfl (by decide) (by decide) rfl rfl rfl⟩

end ClickhouseBinary
